import Mathlib

set_option linter.unusedVariables false

/-
  Verification development for the SHADOW-STAKE-SAGA repository.

  Shallow embedding of the two algorithmic cores:
  - the AI dungeon generator (`AIDungeonGenerator`, src/apps/web/src/lib/ai/cross-chain.ts),
    embedded over ℚ (the generator uses only +, *, /, floor, round, abs and comparisons);
    every call to `Math.random()` (uniform on [0,1)) is modelled as an explicit rational
    draw from a per-purpose stream, quantified over in the theorems;
  - the adaptive boss AI (`AdaptiveBossAI`, src/apps/web/src/lib/ai/adaptive-boss.ts),
    embedded over ℝ (it uses `Math.sqrt` in `calculateDistance` and `calculateVariance`).

  JavaScript `Map` objects are embedded as association lists with `Map.get`/`Map.set`
  semantics (`lookupA`/`setA` below); `Map.set` replaces an existing key in place and
  otherwise appends, matching JS insertion-order semantics.
-/

/-- Lookup in an association list; embeds JavaScript `Map.prototype.get`
(`undefined` becomes `none`). -/
def lookupA {α : Type} (k : String) : List (String × α) → Option α
  | [] => none
  | (k', v) :: t => if k = k' then some v else lookupA k t

/-- Update of an association list; embeds JavaScript `Map.prototype.set`
(replace the first binding of the key, else append). -/
def setA {α : Type} (k : String) (v : α) : List (String × α) → List (String × α)
  | [] => [(k, v)]
  | (k', v') :: t => if k = k' then (k, v) :: t else (k', v') :: setA k v t

/-- JavaScript `Math.round` on a rational: floor(x + 1/2). -/
def jsRound (q : ℚ) : ℤ := Int.floor (q + 1/2)

/-- Index drawn as `Math.floor(q * n)` from a uniform draw `q ∈ [0,1)`. -/
def ratIdx (q : ℚ) (n : ℕ) : ℕ := (Int.floor (q * n)).toNat

/- ## Dungeon generator data model (cross-chain.ts, AIDungeonGenerator part) -/

/-- A dungeon theme (`DungeonTheme` interface). The `biome` union type is kept
as a string. -/
structure DungeonTheme where
  id : String
  name : String
  biome : String
  difficulty : ℚ
  enemyTypes : List String
  hazards : List String
  lootTier : ℚ
deriving DecidableEq, Repr

/-- Prior-performance summary inside `DungeonGenerationParams`. -/
structure PreviousPerformance where
  avgClearTime : ℚ
  deathCount : ℚ
  preferredEnemies : List String
  avoidedEnemies : List String
deriving DecidableEq, Repr

/-- The `playStyle` union type of `DungeonGenerationParams`. -/
inductive PlayStyle where
  | aggressive | defensive | balanced | stealth
deriving DecidableEq, Repr

/-- `DungeonGenerationParams`. -/
structure DungeonGenerationParams where
  playerLevel : ℚ
  playerSkills : List String
  playStyle : PlayStyle
  previousPerformance : PreviousPerformance
  desiredDifficulty : ℚ
  theme : Option DungeonTheme
deriving DecidableEq, Repr

/-- The `AIGeneratedRoom['type']` union. -/
inductive RoomType where
  | combat | puzzle | treasure | boss | safe | trap
deriving DecidableEq, Repr

/-- A grid position `{x, y}` as produced by `getFloorTiles`. -/
structure Pos where
  x : ℕ
  y : ℕ
deriving DecidableEq, Repr

/-- One entry of `AIGeneratedRoom['enemies']`. -/
structure PlacedEnemy where
  type : String
  position : Pos
  behavior : String
deriving DecidableEq, Repr

/-- One entry of `AIGeneratedRoom['items']`. -/
structure PlacedItem where
  type : String
  position : Pos
  rarity : String
deriving DecidableEq, Repr

/-- One entry of `AIGeneratedRoom['hazards']`. -/
structure PlacedHazard where
  type : String
  position : Pos
deriving DecidableEq, Repr

/-- `AIGeneratedRoom`. The layout grid uses 0 = wall, 1 = floor, 2 = door,
3 = special, as documented in the source. -/
structure AIGeneratedRoom where
  id : String
  type : RoomType
  layout : List (List ℕ)
  enemies : List PlacedEnemy
  items : List PlacedItem
  hazards : List PlacedHazard
  difficulty : ℚ
  aiScore : ℚ
deriving DecidableEq, Repr

/-- The mutable instance state of the `AIDungeonGenerator` class
(`playerProfiles` is never read or written by any method, so it is omitted). -/
structure AIDungeonGenerator where
  neuralWeights : List (String × List ℚ)
  generationHistory : List AIGeneratedRoom

/-- `initializeNeuralWeights`: the constructor-time weight table. -/
def initialNeuralWeights : List (String × List ℚ) :=
  [("room_type", [0.3, 0.2, 0.15, 0.1, 0.15, 0.1]),
   ("enemy_density", [0.4, 0.3, 0.2, 0.1]),
   ("hazard_placement", [0.5, 0.3, 0.2]),
   ("loot_quality", [0.2, 0.3, 0.3, 0.2]),
   ("layout_complexity", [0.25, 0.35, 0.25, 0.15])]

/-- A freshly constructed `AIDungeonGenerator`. -/
def initialGenerator : AIDungeonGenerator :=
  { neuralWeights := initialNeuralWeights, generationHistory := [] }

/-- All `Math.random()` draws consumed while generating one room, as explicit
streams of rationals (each JS draw is uniform on [0,1) and independent; a
stream field per call site, indexed by loop iteration where applicable).
`stamp` stands in for the `Date.now()` fragment of the room id, which is the
only non-random, non-deterministic input of `generateRoom`. -/
structure RoomRand where
  stamp : String
  safeRoll : ℚ
  cellRoll : ℕ → ℕ → ℚ
  enemyTile : ℕ → ℚ
  prefRoll : ℕ → ℚ
  prefIdx : ℕ → ℚ
  availIdx : ℕ → ℚ
  behaviorRoll : ℕ → ℚ
  itemTile : ℕ → ℚ
  rarityRoll : ℕ → ℚ
  itemType : ℕ → ℚ
  hazardTile : ℕ → ℚ
  hazardType : ℕ → ℚ

/-- The guarantee `Math.random()` gives for every draw: it lies in [0,1). -/
def RoomRand.Valid (r : RoomRand) : Prop :=
  (0 ≤ r.safeRoll ∧ r.safeRoll < 1)
  ∧ (∀ y x, 0 ≤ r.cellRoll y x ∧ r.cellRoll y x < 1)
  ∧ (∀ i, 0 ≤ r.enemyTile i ∧ r.enemyTile i < 1)
  ∧ (∀ i, 0 ≤ r.prefRoll i ∧ r.prefRoll i < 1)
  ∧ (∀ i, 0 ≤ r.prefIdx i ∧ r.prefIdx i < 1)
  ∧ (∀ i, 0 ≤ r.availIdx i ∧ r.availIdx i < 1)
  ∧ (∀ i, 0 ≤ r.behaviorRoll i ∧ r.behaviorRoll i < 1)
  ∧ (∀ i, 0 ≤ r.itemTile i ∧ r.itemTile i < 1)
  ∧ (∀ i, 0 ≤ r.rarityRoll i ∧ r.rarityRoll i < 1)
  ∧ (∀ i, 0 ≤ r.itemType i ∧ r.itemType i < 1)
  ∧ (∀ i, 0 ≤ r.hazardTile i ∧ r.hazardTile i < 1)
  ∧ (∀ i, 0 ≤ r.hazardType i ∧ r.hazardType i < 1)

/-- A concrete random source with every draw equal to 0. -/
def zeroRand : RoomRand :=
  { stamp := "0", safeRoll := 0, cellRoll := fun _ _ => 0, enemyTile := fun _ => 0,
    prefRoll := fun _ => 0, prefIdx := fun _ => 0, availIdx := fun _ => 0,
    behaviorRoll := fun _ => 0, itemTile := fun _ => 0, rarityRoll := fun _ => 0,
    itemType := fun _ => 0, hazardTile := fun _ => 0, hazardType := fun _ => 0 }

/- ## Layout synthesis (`generateLayout` and helpers) -/

/-- Grid side length: `Math.floor(10 + difficulty * 2)` (clamped to ℕ; in JS a
negative size just makes every loop body unreachable). -/
def gridSize (difficulty : ℚ) : ℕ := (Int.floor (10 + difficulty * 2)).toNat

/-- Materialize an n×n grid from a cell function (the source builds the
`number[][]` row by row). -/
def mkGrid (n : ℕ) (f : ℕ → ℕ → ℕ) : List (List ℕ) :=
  (List.range n).map (fun y => (List.range n).map (fun x => f y x))

/-- Read `layout[y]?.[x]`, with 0 for any out-of-range access (such an access
is only ever compared against 1, so the sentinel is not observable). -/
def cell (g : List (List ℕ)) (y x : ℕ) : ℕ :=
  (((g.get? y).getD []).get? x).getD 0

/-- Read a cell at integer coordinates; negative coordinates are out of range
(JS `layout[-1]` is `undefined`). -/
def cellZ (g : List (List ℕ)) (y x : ℤ) : ℕ :=
  if 0 ≤ y ∧ 0 ≤ x then cell g y.toNat x.toNat else 0

/-- The 8 Moore-neighborhood offsets (dy, dx) scanned by `countNeighbors`. -/
def neighborOffsets : List (ℤ × ℤ) :=
  [(-1,-1),(-1,0),(-1,1),(0,-1),(0,1),(1,-1),(1,0),(1,1)]

/-- `countNeighbors(layout, x, y)`: number of Moore neighbors equal to 1. -/
def countNeighbors (g : List (List ℕ)) (x y : ℕ) : ℕ :=
  neighborOffsets.countP (fun d => decide (cellZ g ((y : ℤ) + d.1) ((x : ℤ) + d.2) = 1))

/-- `layout[y][x] = v`: write one cell (no-op when out of range; all source
call sites are in range for sizes ≥ 1). -/
def setCell (g : List (List ℕ)) (y x v : ℕ) : List (List ℕ) :=
  g.set y (((g.get? y).getD []).set x v)

/-- The interiorCell-cell test of the seeding and smoothing loops
(`for y = 1; y < size - 1` and likewise for x). -/
def interiorCell (n y x : ℕ) : Prop := 1 ≤ y ∧ y + 1 < n ∧ 1 ≤ x ∧ x + 1 < n

instance (n y x : ℕ) : Decidable (interiorCell n y x) := by
  unfold interiorCell; infer_instance

/-- One cellular-automaton smoothing pass: a floor cell survives with ≥ 4
floor neighbors, a wall cell becomes floor with ≥ 5; border cells are copied. -/
def caStep (n : ℕ) (g : List (List ℕ)) : List (List ℕ) :=
  mkGrid n (fun y x =>
    if interiorCell n y x then
      (if cell g y x = 1 then (if 4 ≤ countNeighbors g x y then 1 else 0)
       else (if 5 ≤ countNeighbors g x y then 1 else 0))
    else cell g y x)

/-- `generateLayout(roomType, difficulty)`: random interiorCell seeding at
`floorChance`, three smoothing passes, then a door forced at the midpoint of
the top and bottom border rows. -/
def generateLayout (roomType : RoomType) (difficulty : ℚ) (cellRoll : ℕ → ℕ → ℚ) :
    List (List ℕ) :=
  let size := gridSize difficulty
  let floorChance : ℚ := if roomType = RoomType.boss then 0.6 else 0.5
  let g0 := mkGrid size (fun y x =>
    if interiorCell size y x then (if cellRoll y x < floorChance then 1 else 0) else 0)
  let g3 := caStep size (caStep size (caStep size g0))
  setCell (setCell g3 0 (size / 2) 2) (size - 1) (size / 2) 2

/- ## Floor-tile collection and entity placement -/

/-- Tiles of one row whose value is 1, scanning from column offset `x0`
(the inner loop of `getFloorTiles`). -/
def rowTiles (y x0 : ℕ) : List ℕ → List Pos
  | [] => []
  | v :: t =>
    if v = 1 then Pos.mk x0 y :: rowTiles y (x0 + 1) t else rowTiles y (x0 + 1) t

/-- Row-by-row scan from row offset `y` (the outer loop of `getFloorTiles`). -/
def floorTilesGo (y : ℕ) : List (List ℕ) → List Pos
  | [] => []
  | row :: rest => rowTiles y 0 row ++ floorTilesGo (y + 1) rest

/-- `getFloorTiles(layout)`: every `{x, y}` with `layout[y][x] === 1`, in
row-major order. -/
def getFloorTiles (g : List (List ℕ)) : List Pos := floorTilesGo 0 g

/-- The tile-drawing loop shared by `placeEnemies` / `placeItems` /
`placeHazards`: repeatedly pick index `Math.floor(Math.random() * len)` and
`splice` that tile out, stopping when the requested count is reached or the
tile pool is empty. The default in `getD` is unreachable for draws in [0,1). -/
def pickPositions (roll : ℕ → ℚ) : ℕ → ℕ → List Pos → List Pos
  | _, 0, _ => []
  | _, _ + 1, [] => []
  | i, fuel + 1, t :: ts =>
    let tiles := t :: ts
    let idx := ratIdx (roll i) tiles.length
    tiles.getD idx (Pos.mk 0 0) :: pickPositions roll (i + 1) fuel (tiles.eraseIdx idx)

/-- `selectEnemyType(theme, params)`: avoid the player's avoided enemies when
alternatives exist; with probability 0.6 prefer the player's preferred list.
`prefRoll` is the `Math.random() < 0.6` draw, `prefIdxRoll`/`availIdxRoll` the
index draws (an empty catalog yields JS `undefined`, modelled as `""`). -/
def selectEnemyType (theme : DungeonTheme) (params : DungeonGenerationParams)
    (prefRoll prefIdxRoll availIdxRoll : ℚ) : String :=
  let avail := theme.enemyTypes.filter
    (fun e => !(params.previousPerformance.avoidedEnemies.contains e))
  if avail.length = 0 then theme.enemyTypes.getD 0 "" else
  let preferred := avail.filter
    (fun e => params.previousPerformance.preferredEnemies.contains e)
  if 0 < preferred.length ∧ prefRoll < 0.6 then
    preferred.getD (ratIdx prefIdxRoll preferred.length) ""
  else avail.getD (ratIdx availIdxRoll avail.length) ""

/-- `selectEnemyBehavior(playStyle)`: draw from the play-style-indexed pool. -/
def selectEnemyBehavior (playStyle : PlayStyle) (q : ℚ) : String :=
  let options := match playStyle with
    | PlayStyle.aggressive => ["defensive", "ranged", "support"]
    | PlayStyle.defensive => ["aggressive", "flanking", "burst"]
    | PlayStyle.balanced => ["balanced", "adaptive", "mixed"]
    | PlayStyle.stealth => ["patrol", "alert", "group"]
  options.getD (ratIdx q options.length) ""

/-- `placeEnemies(layout, theme, params, roomType)`. -/
def placeEnemies (layout : List (List ℕ)) (theme : DungeonTheme)
    (params : DungeonGenerationParams) (roomType : RoomType) (rand : RoomRand) :
    List PlacedEnemy :=
  if roomType = RoomType.safe ∨ roomType = RoomType.treasure then [] else
  let enemyCount := if roomType = RoomType.boss then 1
    else (Int.floor ((2 : ℚ) + params.desiredDifficulty)).toNat
  let positions := pickPositions rand.enemyTile 0 enemyCount (getFloorTiles layout)
  positions.enum.map (fun p =>
    { type := selectEnemyType theme params (rand.prefRoll p.1) (rand.prefIdx p.1) (rand.availIdx p.1),
      position := p.2,
      behavior := selectEnemyBehavior params.playStyle (rand.behaviorRoll p.1) })

/-- `selectItemRarity(lootTier, playerLevel)`: cumulative rarity thresholds
(the `playerLevel` parameter is declared but unused in the source). -/
def selectItemRarity (lootTier playerLevel q : ℚ) : String :=
  let tierBonus := lootTier * 0.1
  if q < 0.05 + tierBonus then "mythic"
  else if q < 0.15 + tierBonus then "legendary"
  else if q < 0.35 + tierBonus then "epic"
  else if q < 0.65 then "rare"
  else "common"

/-- `selectItemType(rarity)`: uniform over five item kinds (the `rarity`
argument is unused in the source body). -/
def selectItemType (q : ℚ) : String :=
  (["weapon", "armor", "potion", "scroll", "relic"]).getD (ratIdx q 5) ""

/-- `placeItems(layout, theme, playerLevel, roomType)`. -/
def placeItems (layout : List (List ℕ)) (theme : DungeonTheme) (playerLevel : ℚ)
    (roomType : RoomType) (rand : RoomRand) : List PlacedItem :=
  let itemCount : ℕ := if roomType = RoomType.treasure then 5
    else if roomType = RoomType.boss then 3 else 1
  let positions := pickPositions rand.itemTile 0 itemCount (getFloorTiles layout)
  positions.enum.map (fun p =>
    { type := selectItemType (rand.itemType p.1),
      position := p.2,
      rarity := selectItemRarity theme.lootTier playerLevel (rand.rarityRoll p.1) })

/-- `placeHazards(layout, theme, difficulty)`. -/
def placeHazards (layout : List (List ℕ)) (theme : DungeonTheme) (difficulty : ℚ)
    (rand : RoomRand) : List PlacedHazard :=
  let hazardCount := (Int.floor (difficulty / 2)).toNat
  let positions := pickPositions rand.hazardTile 0 hazardCount (getFloorTiles layout)
  positions.enum.map (fun p =>
    { type := theme.hazards.getD (ratIdx (rand.hazardType p.1) theme.hazards.length) "",
      position := p.2 })

/- ## Room-type prediction, difficulty and scoring -/

/-- `predictRoomType(params, roomIndex, totalRooms)`: neural-weight scores in
object-literal key order, a forced boss room at the end, a 30%-probability
safe room after more than 5 deaths, else the first maximum score (the
`reduce` keeps the earlier entry on ties). -/
def predictRoomType (gen : AIDungeonGenerator) (params : DungeonGenerationParams)
    (roomIndex : ℕ) (totalRooms : ℤ) (safeRoll : ℚ) : RoomType :=
  let weights := (lookupA "room_type" gen.neuralWeights).getD []
  let progress : ℚ := (roomIndex : ℚ) / (totalRooms : ℚ)
  let f0 : ℚ := params.desiredDifficulty / 10
  let f2 : ℚ := params.previousPerformance.deathCount / 10
  let f3 : ℚ := if params.playStyle = PlayStyle.aggressive then 1 else 0
  let f4 : ℚ := if params.playStyle = PlayStyle.defensive then 1 else 0
  let f5 : ℚ := if params.playStyle = PlayStyle.stealth then 1 else 0
  let s0 : RoomType × ℚ := (RoomType.combat, f0 * weights.getD 0 0 + f3 * 0.5)
  let rest : List (RoomType × ℚ) := [
    (RoomType.puzzle, progress * weights.getD 1 0 + f4 * 0.3),
    (RoomType.treasure, f2 * weights.getD 2 0 + progress * 0.4),
    (RoomType.boss, if progress > 0.8 then weights.getD 3 0 * 2 else 0),
    (RoomType.safe, if f2 > 0.5 then weights.getD 4 0 else 0),
    (RoomType.trap, f0 * weights.getD 5 0 + f5 * 0.6)]
  if (roomIndex : ℤ) = totalRooms - 1 then RoomType.boss
  else if params.previousPerformance.deathCount > 5 ∧ safeRoll < 0.3 then RoomType.safe
  else (rest.foldl (fun a b => if b.2 > a.2 then b else a) s0).1

/-- `calculateLayoutComplexity(layout)`: +0.5 per interior floor cell with
≤ 2 floor neighbors, +0.3 per interior floor cell with ≥ 3 (both `if`s are
checked independently in the source). -/
def calculateLayoutComplexity (g : List (List ℕ)) : ℚ :=
  (((List.range g.length).filter (fun y => decide (1 ≤ y ∧ y + 1 < g.length))).map
    (fun y =>
      (((List.range ((g.get? y).getD []).length).filter
          (fun x => decide (1 ≤ x ∧ x + 1 < ((g.get? y).getD []).length))).map
        (fun x =>
          if cell g y x = 1 then
            (if countNeighbors g x y ≤ 2 then (0.5 : ℚ) else 0)
            + (if 3 ≤ countNeighbors g x y then (0.3 : ℚ) else 0)
          else 0)).sum)).sum

/-- `calculateRoomDifficulty(enemies, hazards, layout)`. -/
def calculateRoomDifficulty (enemies : List PlacedEnemy) (hazards : List PlacedHazard)
    (layout : List (List ℕ)) : ℚ :=
  (enemies.length : ℚ) * 2 + (hazards.length : ℚ) * 1.5 + calculateLayoutComplexity layout

/-- `scoreRoom(enemies, items, hazards, layout, params)`: balance + variety +
layout complexity + player-preference bonus, capped at 100. -/
def scoreRoom (enemies : List PlacedEnemy) (items : List PlacedItem)
    (hazards : List PlacedHazard) (layout : List (List ℕ))
    (params : DungeonGenerationParams) : ℚ :=
  let enemyItemQuot : ℚ := (enemies.length : ℚ) / ((items.length : ℚ) + 1)
  let balanceScore : ℚ := if enemyItemQuot > 0.5 ∧ enemyItemQuot < 3 then 10 else 0
  let uniqueEnemies := ((enemies.map (fun e => e.type)).dedup).length
  let preferredCount := (enemies.filter
    (fun e => params.previousPerformance.preferredEnemies.contains e.type)).length
  min 100 (balanceScore + (uniqueEnemies : ℚ) * 5 + calculateLayoutComplexity layout
    + (preferredCount : ℚ) * 3)

/-- `generateRoom(params, theme, roomIndex, totalRooms)`. -/
def generateRoom (params : DungeonGenerationParams) (theme : DungeonTheme)
    (roomIndex : ℕ) (totalRooms : ℤ) (gen : AIDungeonGenerator) (rand : RoomRand) :
    AIGeneratedRoom :=
  let roomType := predictRoomType gen params roomIndex totalRooms rand.safeRoll
  let layout := generateLayout roomType params.desiredDifficulty rand.cellRoll
  let enemies := placeEnemies layout theme params roomType rand
  let items := placeItems layout theme params.playerLevel roomType rand
  let hazards := placeHazards layout theme params.desiredDifficulty rand
  { id := "room-" ++ rand.stamp ++ "-" ++ toString roomIndex,
    type := roomType,
    layout := layout,
    enemies := enemies,
    items := items,
    hazards := hazards,
    difficulty := calculateRoomDifficulty enemies hazards layout,
    aiScore := scoreRoom enemies items hazards layout params }

/- ## Dungeon-level orchestration -/

/-- The predefined theme table inside `selectTheme`. -/
def cryptTheme : DungeonTheme :=
  { id := "crypt", name := "Ancient Crypt", biome := "crypt", difficulty := 3,
    enemyTypes := ["skeleton", "ghost", "zombie", "necromancer"],
    hazards := ["spike-trap", "poison-gas", "curse-zone"], lootTier := 2 }

/-- The volcano theme. -/
def volcanoTheme : DungeonTheme :=
  { id := "volcano", name := "Volcanic Depths", biome := "volcano", difficulty := 7,
    enemyTypes := ["fire-elemental", "lava-beast", "flame-imp"],
    hazards := ["lava-pool", "fire-geyser", "heat-wave"], lootTier := 4 }

/-- The void theme. -/
def voidTheme : DungeonTheme :=
  { id := "void", name := "Void Realm", biome := "void", difficulty := 9,
    enemyTypes := ["void-spawn", "shadow-beast", "eldritch-horror"],
    hazards := ["void-rift", "madness-zone", "gravity-well"], lootTier := 5 }

/-- The ordered theme list of `selectTheme`. -/
def dungeonThemes : List DungeonTheme := [cryptTheme, volcanoTheme, voidTheme]

/-- `selectTheme(params)`: the first theme with
`Math.abs(difficulty - playerLevel) < 3`, else the first theme. -/
def selectTheme (params : DungeonGenerationParams) : DungeonTheme :=
  (dungeonThemes.find? (fun t => decide (|t.difficulty - params.playerLevel| < 3))).getD
    cryptTheme

/-- The value returned by `generateDungeon`. -/
structure DungeonResult where
  rooms : List AIGeneratedRoom
  theme : DungeonTheme
  estimatedDifficulty : ℚ
  aiConfidence : ℚ

/-- `calculateDungeonDifficulty(rooms)`: mean room difficulty rounded to one
decimal (an empty list gives NaN in JS; in ℚ the division is 0 — no claim
touches that value for an empty list). -/
def calculateDungeonDifficulty (rooms : List AIGeneratedRoom) : ℚ :=
  (jsRound (((rooms.map (fun r => r.difficulty)).sum / (rooms.length : ℚ)) * 10) : ℚ) / 10

/-- `calculateConfidence(rooms, params)`. -/
def calculateConfidence (rooms : List AIGeneratedRoom)
    (params : DungeonGenerationParams) : ℚ :=
  let avgScore := (rooms.map (fun r => r.aiScore)).sum / (rooms.length : ℚ)
  let difficultyMatch := |calculateDungeonDifficulty rooms - params.desiredDifficulty|
  max 0 (min 1 ((avgScore / 100) * 0.7 + (1 - difficultyMatch / 10) * 0.3))

/-- `generateDungeon(params, roomCount)`: theme choice, `roomCount` sequential
room generations (none when `roomCount ≤ 0`), aggregate difficulty and
confidence, and the history push. -/
def generateDungeon (gen : AIDungeonGenerator) (params : DungeonGenerationParams)
    (roomCount : ℤ) (rands : ℕ → RoomRand) : DungeonResult × AIDungeonGenerator :=
  let theme := params.theme.getD (selectTheme params)
  let rooms := (List.range roomCount.toNat).map
    (fun i => generateRoom params theme i roomCount gen (rands i))
  ({ rooms := rooms, theme := theme,
     estimatedDifficulty := calculateDungeonDifficulty rooms,
     aiConfidence := calculateConfidence rooms params },
   { gen with generationHistory := gen.generationHistory ++ rooms })

/-- Player feedback record for `learnFromFeedback`. -/
structure PlayerFeedback where
  enjoyment : ℚ
  difficulty : ℚ
  completed : Bool
  timeSpent : ℚ

/-- Index of a room type in `['combat','puzzle','treasure','boss','safe','trap']`. -/
def roomTypeIndex : RoomType → ℕ
  | RoomType.combat => 0
  | RoomType.puzzle => 1
  | RoomType.treasure => 2
  | RoomType.boss => 3
  | RoomType.safe => 4
  | RoomType.trap => 5

/-- `learnFromFeedback(roomId, playerFeedback)`: nudge the room-type weight up
on enjoyed completed rooms, nudge the first enemy-density weight down (floored
at 0.1) on too-hard uncompleted rooms. -/
def learnFromFeedback (gen : AIDungeonGenerator) (roomId : String)
    (fb : PlayerFeedback) : AIDungeonGenerator :=
  match gen.generationHistory.find? (fun r => r.id == roomId) with
  | none => gen
  | some room =>
    let gen1 := if fb.enjoyment > 7 ∧ fb.completed then
        let weights := (lookupA "room_type" gen.neuralWeights).getD []
        let idx := roomTypeIndex room.type
        { gen with neuralWeights := (setA "room_type"
            (weights.set idx (weights.getD idx 0 + 0.01)) gen.neuralWeights) }
      else gen
    if fb.difficulty > 8 ∧ ¬fb.completed then
      let weights := (lookupA "enemy_density" gen1.neuralWeights).getD []
      { gen1 with neuralWeights := (setA "enemy_density"
          (weights.set 0 (max 0.1 (weights.getD 0 0 - 0.01))) gen1.neuralWeights) }
    else gen1

/- ## Adaptive boss AI data model (adaptive-boss.ts), embedded over ℝ -/

section AdaptiveBoss

open scoped Classical

/-- The runtime values stored in `movementPattern`. The TypeScript interface
declares only the four members `circle | backpedal | aggressive | erratic`,
but `initializeBoss` and `detectMovementPattern` also store the string
`'balanced'`; the embedding therefore needs a fifth constructor. -/
inductive MovementPattern where
  | circle | backpedal | aggressive | erratic | balanced
deriving DecidableEq, Repr

/-- `PlayerBehaviorProfile`. Counters are JS numbers, embedded as ℝ. -/
structure PlayerBehaviorProfile where
  avgDistanceFromBoss : ℝ
  attackFrequency : ℝ
  dodgeFrequency : ℝ
  healUsage : ℝ
  abilityUsage : List (String × ℝ)
  movementPattern : MovementPattern
  reactionTime : ℝ
  predictability : ℝ

/-- `BossAdaptation` (the `type` union is kept as a string; only
`'attack_pattern'` is ever stored). -/
structure BossAdaptation where
  type : String
  trigger : String
  effect : String
  effectiveness : ℝ
  timesUsed : ℝ

/-- The `metric` field of a strategy condition (`keyof PlayerBehaviorProfile`). -/
inductive Metric where
  | avgDistanceFromBoss | attackFrequency | dodgeFrequency | healUsage
  | abilityUsage | movementPattern | reactionTime | predictability
deriving DecidableEq, Repr

/-- The condition operator union `'>' | '<' | '==' | '>='`. -/
inductive CondOp where
  | gt | lt | eq | ge
deriving DecidableEq, Repr

/-- One strategy condition. -/
structure StrategyCondition where
  metric : Metric
  operator : CondOp
  value : ℝ

/-- One strategy action. The `params` object is opaque to every method (it is
only passed through), so it is embedded as its literal text. -/
structure StrategyAction where
  type : String
  params : String

/-- `BossStrategy`. -/
structure BossStrategy where
  id : String
  name : String
  conditions : List StrategyCondition
  actions : List StrategyAction
  priority : ℝ

/-- `BossAIState`. -/
structure BossAIState where
  bossId : String
  currentPhase : ℝ
  health : ℝ
  maxHealth : ℝ
  playerBehavior : PlayerBehaviorProfile
  adaptations : List BossAdaptation
  learningRate : ℝ
  aggressionLevel : ℝ
  strategyWeights : List (String × ℝ)

/-- The instance state of the `AdaptiveBossAI` class (its `strategies` field
is constant after the constructor, see `strategies` below). -/
structure AdaptiveBossAI where
  bossStates : List (String × BossAIState)
  behaviorHistory : List (String × List PlayerBehaviorProfile)

/-- A freshly constructed `AdaptiveBossAI`. -/
def initialBossAI : AdaptiveBossAI := { bossStates := [], behaviorHistory := [] }

/-- Strategy 1, `close-gap` (counter ranged players). -/
def closeGapStrategy : BossStrategy :=
  { id := "close-gap", name := "Close the Gap",
    conditions := [{ metric := Metric.avgDistanceFromBoss, operator := CondOp.gt, value := 200 }],
    actions := [{ type := "dash", params := "speed: 2.0, frequency: high" },
                { type := "ranged-attack", params := "projectiles: 3" }],
    priority := 8 }

/-- Strategy 2, `defensive-counter` (counter aggressive melee). -/
def defensiveCounterStrategy : BossStrategy :=
  { id := "defensive-counter", name := "Defensive Counter",
    conditions := [{ metric := Metric.avgDistanceFromBoss, operator := CondOp.lt, value := 100 },
                   { metric := Metric.attackFrequency, operator := CondOp.gt, value := 2 }],
    actions := [{ type := "counter-attack", params := "damage: 1.5" },
                { type := "knockback", params := "distance: 150" }],
    priority := 9 }

/-- Strategy 3, `aoe-spam` (counter dodge-heavy players). -/
def aoeSpamStrategy : BossStrategy :=
  { id := "aoe-spam", name := "AOE Spam",
    conditions := [{ metric := Metric.dodgeFrequency, operator := CondOp.gt, value := 3 }],
    actions := [{ type := "aoe-attack", params := "radius: 200, count: 3" },
                { type := "ground-hazard", params := "duration: 5000" }],
    priority := 7 }

/-- Strategy 4, `prediction-attack` (counter predictable movement). -/
def predictionAttackStrategy : BossStrategy :=
  { id := "prediction-attack", name := "Prediction Attack",
    conditions := [{ metric := Metric.predictability, operator := CondOp.gt, value := 0.7 }],
    actions := [{ type := "predicted-strike", params := "leadTime: 500" },
                { type := "trap-placement", params := "ahead: true" }],
    priority := 10 }

/-- Strategy 5, `burst-damage` (counter heal spamming). -/
def burstDamageStrategy : BossStrategy :=
  { id := "burst-damage", name := "Burst Damage",
    conditions := [{ metric := Metric.healUsage, operator := CondOp.gt, value := 3 }],
    actions := [{ type := "combo-attack", params := "hits: 5, speed: 1.5" },
                { type := "heal-block", params := "duration: 3000" }],
    priority := 8 }

/-- `initializeStrategies`: the fixed strategy catalog, in source order. -/
def strategies : List BossStrategy :=
  [closeGapStrategy, defensiveCounterStrategy, aoeSpamStrategy,
   predictionAttackStrategy, burstDamageStrategy]

/-- The profile literal built by `initializeBoss` (note the out-of-enum
`movementPattern: 'balanced'`). -/
def initialProfile : PlayerBehaviorProfile :=
  { avgDistanceFromBoss := 0, attackFrequency := 0, dodgeFrequency := 0,
    healUsage := 0, abilityUsage := [], movementPattern := MovementPattern.balanced,
    reactionTime := 500, predictability := 0.5 }

/-- The `BossAIState` literal built by `initializeBoss`, including the
strategy-weight map filled with 1.0 by the `forEach` over the catalog. -/
def initialBossState (bossId : String) (maxHealth : ℝ) : BossAIState :=
  { bossId := bossId, currentPhase := 1, health := maxHealth, maxHealth := maxHealth,
    playerBehavior := initialProfile, adaptations := [], learningRate := 0.1,
    aggressionLevel := 5,
    strategyWeights := strategies.foldl (fun m s => setA s.id 1.0 m) [] }

/-- `initializeBoss(bossId, maxHealth)`: store and return the fresh state. -/
def initializeBoss (ai : AdaptiveBossAI) (bossId : String) (maxHealth : ℝ) :
    AdaptiveBossAI × BossAIState :=
  let state := initialBossState bossId maxHealth
  ({ ai with bossStates := setA bossId state ai.bossStates }, state)

/-- `calculateDistance(pos1, pos2)`. -/
noncomputable def calculateDistance (p q : ℝ × ℝ) : ℝ :=
  Real.sqrt ((p.1 - q.1) ^ 2 + (p.2 - q.2) ^ 2)

/-- `calculateVariance(values)`: the source returns the square root of the
population variance (i.e. the standard deviation). -/
noncomputable def calculateVariance (values : List ℝ) : ℝ :=
  let mean := values.sum / (values.length : ℝ)
  Real.sqrt ((values.map (fun v => (v - mean) ^ 2)).sum / (values.length : ℝ))

/-- `detectMovementPattern(bossId)`, as a function of the stored history at
the moment of the call (fewer than 10 samples gives the out-of-enum
`'balanced'`). -/
noncomputable def detectMovementPattern (history : List PlayerBehaviorProfile) :
    MovementPattern :=
  if history.length < 10 then MovementPattern.balanced else
  let recent := history.drop (history.length - 10)
  let avgDistance := (recent.map (fun b => b.avgDistanceFromBoss)).sum / (recent.length : ℝ)
  if avgDistance > 250 then MovementPattern.backpedal
  else if avgDistance < 100 then MovementPattern.aggressive
  else if (recent.map (fun b => |b.avgDistanceFromBoss - avgDistance|)).sum / (recent.length : ℝ) < 30
    then MovementPattern.circle
  else MovementPattern.erratic

/-- `calculatePredictability(bossId)` as a function of the stored history:
0.5 below 20 samples, else `1 - min(1, (stddev(attack) + stddev(dodge)) / 10)`
over the last 20 samples. -/
noncomputable def calculatePredictability (history : List PlayerBehaviorProfile) : ℝ :=
  if history.length < 20 then 0.5 else
  let recent := history.drop (history.length - 20)
  let attackVariance := calculateVariance (recent.map (fun b => b.attackFrequency))
  let dodgeVariance := calculateVariance (recent.map (fun b => b.dodgeFrequency))
  1 - min 1 ((attackVariance + dodgeVariance) / 10)

/-- The `action` argument of `updatePlayerBehavior`. -/
inductive ActionKind where
  | attack | dodge | heal | ability | move
deriving DecidableEq, Repr

/-- A timestamped player action event. -/
structure PlayerAction where
  kind : ActionKind
  position : Option (ℝ × ℝ)
  bossPosition : Option (ℝ × ℝ)
  abilityId : Option String
  timestamp : ℝ

/-- `updatePlayerBehavior(bossId, action)`: unknown id is a no-op; otherwise
bump the matching counter (for `move`, fold the new distance into the
fast-decaying average), recompute `movementPattern` and `predictability` from
the history as stored before this call, then push a snapshot of the updated
profile onto the history, shifting once above 100 entries. (The snapshot is a
JS shallow copy whose `abilityUsage` aliases the live map; no reader of the
history ever looks at `abilityUsage`, so a value copy is equivalent.) -/
noncomputable def updatePlayerBehavior (ai : AdaptiveBossAI) (bossId : String)
    (action : PlayerAction) : AdaptiveBossAI :=
  match lookupA bossId ai.bossStates with
  | none => ai
  | some state =>
    let b := state.playerBehavior
    let b1 := match action.kind with
      | ActionKind.attack => { b with attackFrequency := b.attackFrequency + 1 }
      | ActionKind.dodge => { b with dodgeFrequency := b.dodgeFrequency + 1 }
      | ActionKind.heal => { b with healUsage := b.healUsage + 1 }
      | ActionKind.ability =>
        match action.abilityId with
        | some abilityId =>
          { b with abilityUsage := (setA abilityId
              ((lookupA abilityId b.abilityUsage).getD 0 + 1) b.abilityUsage) }
        | none => b
      | ActionKind.move =>
        match action.position, action.bossPosition with
        | some p, some q =>
          { b with avgDistanceFromBoss := (b.avgDistanceFromBoss + calculateDistance p q) / 2 }
        | _, _ => b
    let history := (lookupA bossId ai.behaviorHistory).getD []
    let b2 := { b1 with movementPattern := detectMovementPattern history }
    let b3 := { b2 with predictability := calculatePredictability history }
    let pushed := history ++ [b3]
    let newHistory := if 100 < pushed.length then pushed.tail else pushed
    { bossStates := setA bossId { state with playerBehavior := b3 } ai.bossStates,
      behaviorHistory := setA bossId newHistory ai.behaviorHistory }

/-- The numeric view `typeof value === 'number' ? value : 0` used when a
condition reads a profile metric (the map-valued and string-valued fields
read as 0). -/
def metricValue (b : PlayerBehaviorProfile) : Metric → ℝ
  | Metric.avgDistanceFromBoss => b.avgDistanceFromBoss
  | Metric.attackFrequency => b.attackFrequency
  | Metric.dodgeFrequency => b.dodgeFrequency
  | Metric.healUsage => b.healUsage
  | Metric.abilityUsage => 0
  | Metric.movementPattern => 0
  | Metric.reactionTime => b.reactionTime
  | Metric.predictability => b.predictability

/-- One condition check of `selectStrategy`. -/
def condHolds (b : PlayerBehaviorProfile) (c : StrategyCondition) : Prop :=
  match c.operator with
  | CondOp.gt => metricValue b c.metric > c.value
  | CondOp.lt => metricValue b c.metric < c.value
  | CondOp.eq => metricValue b c.metric = c.value
  | CondOp.ge => metricValue b c.metric ≥ c.value

/-- The learned-weight read `strategyWeights.get(id) || 1.0` (both a missing
key and a stored 0 fall back to 1.0, since 0 is falsy). -/
noncomputable def weightOrOne (weights : List (String × ℝ)) (id : String) : ℝ :=
  match lookupA id weights with
  | none => 1.0
  | some w => if w = 0 then 1.0 else w

/-- The score `selectStrategy` assigns one strategy: 0 unless every condition
holds, else priority times the learned weight. -/
noncomputable def scoreStrategy (b : PlayerBehaviorProfile)
    (weights : List (String × ℝ)) (s : BossStrategy) : ℝ :=
  if ∀ c ∈ s.conditions, condHolds b c then s.priority * weightOrOne weights s.id else 0

/-- `scores.indexOf(maxScore)`: index of the first occurrence. -/
noncomputable def firstIdxOf (m : ℝ) : List ℝ → Option ℕ
  | [] => none
  | x :: t => if x = m then some 0 else (firstIdxOf m t).map (· + 1)

/-- The selection core of `selectStrategy` on a profile and a weight map:
score every catalog strategy, take `Math.max(...scores)`, return null when
the max is 0, else the strategy at the first index attaining the max. -/
noncomputable def selectStrategyFrom (b : PlayerBehaviorProfile)
    (weights : List (String × ℝ)) : Option BossStrategy :=
  let scores := strategies.map (scoreStrategy b weights)
  match scores with
  | [] => none
  | s0 :: restScores =>
    let maxScore := restScores.foldl max s0
    if maxScore = 0 then none
    else match firstIdxOf maxScore scores with
      | some i => strategies.get? i
      | none => none

/-- `selectStrategy(bossId)`: null on an unknown id. -/
noncomputable def selectStrategy (ai : AdaptiveBossAI) (bossId : String) :
    Option BossStrategy :=
  match lookupA bossId ai.bossStates with
  | none => none
  | some state => selectStrategyFrom state.playerBehavior state.strategyWeights

/-- Replace the first element satisfying `p` by `f` of it (the in-place
mutation of the object found by `Array.prototype.find`). -/
def replaceFirst {α : Type} (p : α → Bool) (f : α → α) : List α → List α
  | [] => []
  | a :: t => if p a then f a :: t else a :: replaceFirst p f t

/-- `executeBossAction(bossId, strategy)`: unknown id returns `[]`; otherwise
append a fresh adaptation log entry keyed by the strategy name, or bump
`timesUsed` on the existing entry, and return the strategy's action list. -/
noncomputable def executeBossAction (ai : AdaptiveBossAI) (bossId : String)
    (strategy : BossStrategy) : AdaptiveBossAI × List StrategyAction :=
  match lookupA bossId ai.bossStates with
  | none => (ai, [])
  | some state =>
    let adaptation : BossAdaptation :=
      { type := "attack_pattern", trigger := strategy.name,
        effect := String.intercalate ", " (strategy.actions.map (fun a => a.type)),
        effectiveness := 0, timesUsed := 1 }
    let newAdaptations :=
      if state.adaptations.any (fun a => a.trigger == adaptation.trigger) then
        replaceFirst (fun a => a.trigger == adaptation.trigger)
          (fun a => { a with timesUsed := a.timesUsed + 1 }) state.adaptations
      else state.adaptations ++ [adaptation]
    ({ ai with bossStates := setA bossId { state with adaptations := newAdaptations } ai.bossStates },
     strategy.actions)

/-- The outcome record fed to `learnFromOutcome`. -/
structure StrategyOutcome where
  damageDealt : ℝ
  playerHit : Bool
  playerDodged : Bool

/-- `learnFromOutcome(bossId, strategyId, outcome)`: effectiveness =
0.5·playerHit + damageDealt/100 (when positive) + 0.3·(not dodged); move the
stored weight toward it by the learning rate and clamp to [0.1, 3.0]; update
the running-average effectiveness of the adaptation whose trigger contains
the strategy id as a substring (`String.prototype.includes`). -/
noncomputable def learnFromOutcome (ai : AdaptiveBossAI) (bossId : String)
    (strategyId : String) (outcome : StrategyOutcome) : AdaptiveBossAI :=
  match lookupA bossId ai.bossStates with
  | none => ai
  | some state =>
    let currentWeight := weightOrOne state.strategyWeights strategyId
    let effectiveness := (if outcome.playerHit then (0.5 : ℝ) else 0)
      + (if outcome.damageDealt > 0 then outcome.damageDealt / 100 else 0)
      + (if ¬outcome.playerDodged then (0.3 : ℝ) else 0)
    let newWeight := currentWeight + state.learningRate * (effectiveness - currentWeight)
    let newWeights := setA strategyId (max 0.1 (min 3.0 newWeight)) state.strategyWeights
    let newAdaptations :=
      replaceFirst (fun a => decide (List.IsInfix strategyId.toList a.trigger.toList))
        (fun a => { a with effectiveness :=
          (a.effectiveness * (a.timesUsed - 1) + effectiveness) / a.timesUsed })
        state.adaptations
    { ai with bossStates := (setA bossId
        { state with strategyWeights := newWeights, adaptations := newAdaptations } ai.bossStates) }

/-- `transitionPhase(bossId, newPhase)`: raise aggression and learning rate
with the phase, reset the attack/dodge/heal counters, keep the weights. -/
noncomputable def transitionPhase (ai : AdaptiveBossAI) (bossId : String)
    (newPhase : ℝ) : AdaptiveBossAI :=
  match lookupA bossId ai.bossStates with
  | none => ai
  | some state =>
    let b := state.playerBehavior
    { ai with bossStates := (setA bossId
        { state with
          currentPhase := newPhase,
          aggressionLevel := min 10 (5 + newPhase * 2),
          learningRate := min 0.3 (0.1 + newPhase * 0.05),
          playerBehavior := { b with attackFrequency := 0, dodgeFrequency := 0, healUsage := 0 } }
        ai.bossStates) }

/-- `getDifficultyMultiplier(bossId)`: 1.0 on an unknown id, else
1.0 + min(0.5, 0.05·adaptations) + 0.2·(phase − 1). -/
noncomputable def getDifficultyMultiplier (ai : AdaptiveBossAI) (bossId : String) : ℝ :=
  match lookupA bossId ai.bossStates with
  | none => 1.0
  | some state =>
    1.0 + min 0.5 ((state.adaptations.length : ℝ) * 0.05) + (state.currentPhase - 1) * 0.2

/-- Display name of a movement pattern (the raw runtime string). -/
def patternName : MovementPattern → String
  | MovementPattern.circle => "circle"
  | MovementPattern.backpedal => "backpedal"
  | MovementPattern.aggressive => "aggressive"
  | MovementPattern.erratic => "erratic"
  | MovementPattern.balanced => "balanced"

/-- The record returned by `getAIInsights`. -/
structure AIInsights where
  currentStrategy : String
  playerProfile : String
  adaptations : List String
  difficulty : ℝ

/-- `getAIInsights(bossId)`: null on an unknown id, else a debug summary
(`strategy?.name || 'None'` also maps an empty name to `'None'`). -/
noncomputable def getAIInsights (ai : AdaptiveBossAI) (bossId : String) :
    Option AIInsights :=
  match lookupA bossId ai.bossStates with
  | none => none
  | some state =>
    let strategyName := match selectStrategy ai bossId with
      | none => "None"
      | some s => if s.name = "" then "None" else s.name
    some
      { currentStrategy := strategyName,
        playerProfile := patternName state.playerBehavior.movementPattern
          ++ " (" ++ toString (round (state.playerBehavior.predictability * 100)) ++ "% predictable)",
        adaptations := state.adaptations.map (fun a =>
          a.trigger ++ ": " ++ toString (round (a.effectiveness * 100)) ++ "% effective"),
        difficulty := getDifficultyMultiplier ai bossId }

/-- One controller call, for reasoning about arbitrary finite call sequences
(`selectStrategy`, `getDifficultyMultiplier` and `getAIInsights` are
read-only; `select` is kept in the alphabet to mirror the claim wording). -/
inductive BossOp where
  | init (bossId : String) (maxHealth : ℝ)
  | update (bossId : String) (action : PlayerAction)
  | select (bossId : String)
  | execute (bossId : String) (strategy : BossStrategy)
  | learn (bossId : String) (strategyId : String) (outcome : StrategyOutcome)
  | transition (bossId : String) (newPhase : ℝ)

/-- Apply one controller call to the instance state. -/
noncomputable def applyOp (ai : AdaptiveBossAI) : BossOp → AdaptiveBossAI
  | BossOp.init bossId maxHealth => (initializeBoss ai bossId maxHealth).1
  | BossOp.update bossId action => updatePlayerBehavior ai bossId action
  | BossOp.select _ => ai
  | BossOp.execute bossId strategy => (executeBossAction ai bossId strategy).1
  | BossOp.learn bossId strategyId outcome => learnFromOutcome ai bossId strategyId outcome
  | BossOp.transition bossId newPhase => transitionPhase ai bossId newPhase

/-- Apply a finite sequence of controller calls to a fresh instance. -/
noncomputable def applyOps (ops : List BossOp) : AdaptiveBossAI :=
  ops.foldl applyOp initialBossAI

end AdaptiveBoss

/- ## Concrete fixtures used by the theorems and witnesses below -/

/-- The scenario profile of claim C1: `predictability 0.9`,
`avgDistanceFromBoss 50`, every other metric at its initial value. -/
noncomputable def scenarioProfile : PlayerBehaviorProfile :=
  { initialProfile with predictability := 0.9, avgDistanceFromBoss := 50 }

/-- An initialized boss state whose profile is `scenarioProfile` and whose
weights are the initial (all 1.0) catalog weights. -/
noncomputable def scenarioBossState : BossAIState :=
  { initialBossState "boss-1" 100 with playerBehavior := scenarioProfile }

/-- An `AdaptiveBossAI` instance holding exactly the scenario state. -/
noncomputable def scenarioBossAI : AdaptiveBossAI :=
  { bossStates := [("boss-1", scenarioBossState)], behaviorHistory := [] }

/-- Baseline generation parameters used for concrete dungeon inputs. -/
def sampleParams : DungeonGenerationParams :=
  { playerLevel := 1, playerSkills := [], playStyle := PlayStyle.aggressive,
    previousPerformance :=
      { avgClearTime := 0, deathCount := 0, preferredEnemies := [], avoidedEnemies := [] },
    desiredDifficulty := 0, theme := none }

/-- Parameters at player level 10, where the boundary behavior of
`selectTheme` is observable: the volcano theme differs in difficulty by
exactly 3. -/
def levelTenParams : DungeonGenerationParams :=
  { sampleParams with playerLevel := 10 }

/-- Parameters producing the cross-category collision of claim C10: with
`desiredDifficulty = -1` the grid has size 8, and with `roomIndex = 0` of
`totalRooms = 1` the room is forced to `boss` (1 enemy, 3 items). -/
def collisionParams : DungeonGenerationParams :=
  { sampleParams with desiredDifficulty := -1 }

/- ## Association-list lemmas -/

theorem lookupA_setA_self {α : Type} (k : String) (v : α) (l : List (String × α)) :
    lookupA k (setA k v l) = some v := by
  induction l with
  | nil => simp [setA, lookupA]
  | cons h t ih =>
    obtain ⟨k', v'⟩ := h
    by_cases hk : k = k'
    · simp [setA, hk, lookupA]
    · simp [setA, hk, lookupA, ih]

theorem lookupA_setA_ne {α : Type} {k k' : String} (v : α) (l : List (String × α))
    (h : k ≠ k') : lookupA k (setA k' v l) = lookupA k l := by
  induction l with
  | nil => simp [setA, lookupA, h]
  | cons hd t ih =>
    obtain ⟨k'', v''⟩ := hd
    by_cases hk : k' = k''
    · subst hk; simp [setA, lookupA, h, ih]
    · simp only [setA, if_neg hk]
      by_cases hkk : k = k''
      · simp [lookupA, hkk]
      · simp [lookupA, hkk, ih]

theorem lookupA_setA_cases {α : Type} {k k' : String} {v w : α} {l : List (String × α)}
    (h : lookupA k (setA k' v l) = some w) : w = v ∨ lookupA k l = some w := by
  by_cases hk : k = k'
  · subst hk; rw [lookupA_setA_self] at h; exact Or.inl (Option.some_injective _ h).symm
  · rw [lookupA_setA_ne v l hk] at h; exact Or.inr h

/- ## Claim C8: nonpositive room counts give an empty dungeon -/

/-- Claim C8: for every generation parameter record and every
`roomCount ≤ 0`, `generateDungeon` returns a result whose room list is empty
(the embedding is total, so no exception can be raised). -/
theorem generateDungeon_nonpositive_roomCount (gen : AIDungeonGenerator)
    (params : DungeonGenerationParams) (roomCount : ℤ) (rands : ℕ → RoomRand)
    (h : roomCount ≤ 0) :
    (generateDungeon gen params roomCount rands).1.rooms = [] := by
  unfold generateDungeon
  simp [Int.toNat_of_nonpos h]

/-- Witness for C8 at the concrete room count −3. -/
theorem generateDungeon_nonpositive_roomCount_witness :
    (generateDungeon initialGenerator sampleParams (-3) (fun _ => zeroRand)).1.rooms = [] :=
  generateDungeon_nonpositive_roomCount initialGenerator sampleParams (-3)
    (fun _ => zeroRand) (by norm_num)

/- ## Claim C7: the out-of-enum movement pattern 'balanced' -/

/-- Claim C7 (code bug): the TypeScript interface declares
`movementPattern : 'circle' | 'backpedal' | 'aggressive' | 'erratic'`, and
the claim says the stored value is always one of those four; but
`initializeBoss` stores the fifth runtime value `'balanced'`, and
`detectMovementPattern` returns `'balanced'` whenever fewer than 10 samples
exist (distinct from all four declared members). -/
theorem movementPattern_balanced_out_of_enum :
    (initialBossState "boss" 100).playerBehavior.movementPattern = MovementPattern.balanced
    ∧ detectMovementPattern [] = MovementPattern.balanced
    ∧ MovementPattern.balanced ≠ MovementPattern.circle
    ∧ MovementPattern.balanced ≠ MovementPattern.backpedal
    ∧ MovementPattern.balanced ≠ MovementPattern.aggressive
    ∧ MovementPattern.balanced ≠ MovementPattern.erratic := by
  refine ⟨rfl, ?_, by decide, by decide, by decide, by decide⟩
  unfold detectMovementPattern
  norm_num

/- ## Claim C4: the effect of transitionPhase -/

/-- Claim C4: immediately after `transitionPhase(bossId, newPhase)` on an
initialized boss state, the attack/dodge/heal counters are exactly 0, the
strategy-weight map is unchanged, `aggressionLevel = min(10, 5 + newPhase·2)`
and `learningRate = min(0.3, 0.1 + newPhase·0.05)`. -/
theorem transitionPhase_effect (ai : AdaptiveBossAI) (bossId : String) (newPhase : ℝ)
    (st : BossAIState) (h : lookupA bossId ai.bossStates = some st) :
    ∃ st', lookupA bossId (transitionPhase ai bossId newPhase).bossStates = some st'
      ∧ st'.playerBehavior.attackFrequency = 0
      ∧ st'.playerBehavior.dodgeFrequency = 0
      ∧ st'.playerBehavior.healUsage = 0
      ∧ st'.strategyWeights = st.strategyWeights
      ∧ st'.aggressionLevel = min 10 (5 + newPhase * 2)
      ∧ st'.learningRate = min 0.3 (0.1 + newPhase * 0.05) := by
  unfold transitionPhase
  rw [h]
  exact ⟨_, lookupA_setA_self bossId _ ai.bossStates, rfl, rfl, rfl, rfl, rfl, rfl⟩

/-- Witness for C4: the freshly initialized boss `"boss"` moved to phase 2. -/
theorem transitionPhase_effect_witness :
    ∃ st', lookupA "boss"
        (transitionPhase (initializeBoss initialBossAI "boss" 100).1 "boss" 2).bossStates
        = some st'
      ∧ st'.playerBehavior.attackFrequency = 0
      ∧ st'.playerBehavior.dodgeFrequency = 0
      ∧ st'.playerBehavior.healUsage = 0
      ∧ st'.strategyWeights = (initialBossState "boss" 100).strategyWeights
      ∧ st'.aggressionLevel = min 10 (5 + 2 * 2)
      ∧ st'.learningRate = min 0.3 (0.1 + 2 * 0.05) :=
  transitionPhase_effect (initializeBoss initialBossAI "boss" 100).1 "boss" 2
    (initialBossState "boss" 100) (lookupA_setA_self "boss" _ [])

/- ## Claim C6: every controller call is a no-op on an unknown boss id -/

/-- Claim C6: on a boss id never passed to `initializeBoss` (no stored state),
every controller operation returns its documented fallback (`selectStrategy`
and `getAIInsights` return null, `executeBossAction` returns the empty action
list, `getDifficultyMultiplier` returns the neutral default 1.0) and leaves
the entire instance state — in particular every stored boss state —
unchanged; nothing can be raised since all operations are total. -/
theorem unknown_bossId_noop (ai : AdaptiveBossAI) (bossId : String)
    (h : lookupA bossId ai.bossStates = none) :
    (∀ action, updatePlayerBehavior ai bossId action = ai)
    ∧ selectStrategy ai bossId = none
    ∧ (∀ strategy, executeBossAction ai bossId strategy = (ai, []))
    ∧ (∀ strategyId outcome, learnFromOutcome ai bossId strategyId outcome = ai)
    ∧ (∀ newPhase, transitionPhase ai bossId newPhase = ai)
    ∧ getDifficultyMultiplier ai bossId = 1.0
    ∧ getAIInsights ai bossId = none := by
  refine ⟨?_, ?_, ?_, ?_, ?_, ?_, ?_⟩
  · intro action; unfold updatePlayerBehavior; rw [h]
  · unfold selectStrategy; rw [h]
  · intro strategy; unfold executeBossAction; rw [h]
  · intro strategyId outcome; unfold learnFromOutcome; rw [h]
  · intro newPhase; unfold transitionPhase; rw [h]
  · unfold getDifficultyMultiplier; rw [h]
  · unfold getAIInsights; rw [h]

/-- Witness for C6 on a fresh instance and the unknown id `"nobody"`. -/
theorem unknown_bossId_noop_witness :
    selectStrategy initialBossAI "nobody" = none
    ∧ getDifficultyMultiplier initialBossAI "nobody" = 1.0
    ∧ getAIInsights initialBossAI "nobody" = none
    ∧ (∀ newPhase, transitionPhase initialBossAI "nobody" newPhase = initialBossAI) := by
  have h := unknown_bossId_noop initialBossAI "nobody" rfl
  exact ⟨h.2.1, h.2.2.2.2.2.1, h.2.2.2.2.2.2, h.2.2.2.2.1⟩

/- ## Claim C2: strategy weights stay in [0.1, 3.0] -/

theorem weights_bound_foldl_init (l : List BossStrategy) (m : List (String × ℝ))
    (hm : ∀ sid w, lookupA sid m = some w → 0.1 ≤ w ∧ w ≤ 3.0) :
    ∀ sid w, lookupA sid (l.foldl (fun acc s => setA s.id 1.0 acc) m) = some w →
      0.1 ≤ w ∧ w ≤ 3.0 := by
  induction l generalizing m with
  | nil => exact hm
  | cons s t ih =>
    intro sid w hw
    refine ih (setA s.id 1.0 m) ?_ sid w hw
    intro sid' w' hw'
    rcases lookupA_setA_cases hw' with h1 | h1
    · subst h1; norm_num
    · exact hm sid' w' h1

theorem weights_bound_initialBossState (bossId : String) (maxHealth : ℝ) :
    ∀ sid w, lookupA sid (initialBossState bossId maxHealth).strategyWeights = some w →
      0.1 ≤ w ∧ w ≤ 3.0 := by
  refine weights_bound_foldl_init strategies [] ?_
  intro sid w hw
  simp [lookupA] at hw

theorem weights_bound_applyOp (ai : AdaptiveBossAI)
    (hai : ∀ id st, lookupA id ai.bossStates = some st →
      ∀ sid w, lookupA sid st.strategyWeights = some w → 0.1 ≤ w ∧ w ≤ 3.0)
    (op : BossOp) :
    ∀ id st, lookupA id (applyOp ai op).bossStates = some st →
      ∀ sid w, lookupA sid st.strategyWeights = some w → 0.1 ≤ w ∧ w ≤ 3.0 := by
  cases op with
  | init bossId maxHealth =>
    intro id st hst
    rcases lookupA_setA_cases hst with h1 | h1
    · subst h1; exact weights_bound_initialBossState bossId maxHealth
    · exact hai id st h1
  | update bossId action =>
    intro id st hst
    simp only [applyOp, updatePlayerBehavior] at hst
    cases hl : lookupA bossId ai.bossStates with
    | none => rw [hl] at hst; exact hai id st hst
    | some state =>
      rw [hl] at hst
      rcases lookupA_setA_cases hst with h1 | h1
      · subst h1; exact hai bossId state hl
      · exact hai id st h1
  | select bossId => exact hai
  | execute bossId strategy =>
    intro id st hst
    simp only [applyOp, executeBossAction] at hst
    cases hl : lookupA bossId ai.bossStates with
    | none => rw [hl] at hst; exact hai id st hst
    | some state =>
      rw [hl] at hst
      rcases lookupA_setA_cases hst with h1 | h1
      · subst h1; exact hai bossId state hl
      · exact hai id st h1
  | learn bossId strategyId outcome =>
    intro id st hst
    simp only [applyOp, learnFromOutcome] at hst
    cases hl : lookupA bossId ai.bossStates with
    | none => rw [hl] at hst; exact hai id st hst
    | some state =>
      rw [hl] at hst
      rcases lookupA_setA_cases hst with h1 | h1
      · subst h1
        intro sid w hw
        rcases lookupA_setA_cases hw with h2 | h2
        · subst h2
          constructor
          · exact le_max_left 0.1 _
          · exact max_le (by norm_num) (min_le_left 3.0 _)
        · exact hai bossId state hl sid w h2
      · exact hai id st h1
  | transition bossId newPhase =>
    intro id st hst
    simp only [applyOp, transitionPhase] at hst
    cases hl : lookupA bossId ai.bossStates with
    | none => rw [hl] at hst; exact hai id st hst
    | some state =>
      rw [hl] at hst
      rcases lookupA_setA_cases hst with h1 | h1
      · subst h1; exact hai bossId state hl
      · exact hai id st h1

theorem weights_bound_foldl_ops (ops : List BossOp) :
    ∀ ai : AdaptiveBossAI,
      (∀ id st, lookupA id ai.bossStates = some st →
        ∀ sid w, lookupA sid st.strategyWeights = some w → 0.1 ≤ w ∧ w ≤ 3.0) →
      ∀ id st, lookupA id (ops.foldl applyOp ai).bossStates = some st →
        ∀ sid w, lookupA sid st.strategyWeights = some w → 0.1 ≤ w ∧ w ≤ 3.0 := by
  induction ops with
  | nil => intro ai hai; exact hai
  | cons op t ih =>
    intro ai hai
    exact ih (applyOp ai op) (weights_bound_applyOp ai hai op)

/-- Claim C2: along every finite sequence of controller calls starting from a
fresh instance, every value stored in any boss state's `strategyWeights` map
lies in [0.1, 3.0]; and `initializeBoss` starts every catalog strategy's
weight at exactly 1.0. -/
theorem strategyWeights_clamped :
    (∀ ops : List BossOp, ∀ id st, lookupA id (applyOps ops).bossStates = some st →
      ∀ sid w, lookupA sid st.strategyWeights = some w → 0.1 ≤ w ∧ w ≤ 3.0)
    ∧ (∀ bossId : String, ∀ maxHealth : ℝ, ∀ s ∈ strategies,
        lookupA s.id (initialBossState bossId maxHealth).strategyWeights = some 1.0) := by
  constructor
  · intro ops
    refine weights_bound_foldl_ops ops initialBossAI ?_
    intro id st hst
    simp [initialBossAI, lookupA] at hst
  · intro bossId maxHealth s hs
    fin_cases hs <;> rfl

/-- Witness for C2: after the single call `initializeBoss("b", 100)`, the
stored `close-gap` weight 1.0 satisfies the clamp bounds. -/
theorem strategyWeights_clamped_witness : (0.1 : ℝ) ≤ 1.0 ∧ (1.0 : ℝ) ≤ 3.0 :=
  strategyWeights_clamped.1 [BossOp.init "b" 100] "b" (initialBossState "b" 100)
    rfl "close-gap" 1.0 rfl

/- ## Claim C5: predictability bounds and the below-20-samples default -/

theorem calculateVariance_nonneg (values : List ℝ) : 0 ≤ calculateVariance values :=
  Real.sqrt_nonneg _

theorem one_sub_min_one_mem (x : ℝ) (hx : 0 ≤ x) :
    0 ≤ 1 - min 1 x ∧ 1 - min 1 x ≤ 1 := by
  have h1 : min 1 x ≤ 1 := min_le_left _ _
  have h2 : (0 : ℝ) ≤ min 1 x := le_min zero_le_one hx
  constructor <;> linarith

theorem calculatePredictability_mem (history : List PlayerBehaviorProfile) :
    0 ≤ calculatePredictability history ∧ calculatePredictability history ≤ 1 := by
  unfold calculatePredictability
  split
  · norm_num
  · exact one_sub_min_one_mem _
      (div_nonneg (add_nonneg (calculateVariance_nonneg _) (calculateVariance_nonneg _))
        (by norm_num))

theorem calculatePredictability_short (history : List PlayerBehaviorProfile)
    (h : history.length < 20) : calculatePredictability history = 0.5 := by
  unfold calculatePredictability
  rw [if_pos h]

theorem updatePlayerBehavior_shape (ai : AdaptiveBossAI) (bossId : String)
    (action : PlayerAction) (state : BossAIState)
    (hl : lookupA bossId ai.bossStates = some state) :
    ∃ b3 : PlayerBehaviorProfile, ∃ newHistory : List PlayerBehaviorProfile,
      b3.predictability = calculatePredictability ((lookupA bossId ai.behaviorHistory).getD [])
      ∧ (newHistory.length < 20 → ((lookupA bossId ai.behaviorHistory).getD []).length < 20)
      ∧ updatePlayerBehavior ai bossId action =
          { bossStates := setA bossId { state with playerBehavior := b3 } ai.bossStates,
            behaviorHistory := setA bossId newHistory ai.behaviorHistory } := by
  unfold updatePlayerBehavior
  rw [hl]
  refine ⟨_, _, rfl, ?_, rfl⟩
  intro h
  split at h <;>
    simp only [List.length_tail, List.length_append, List.length_singleton] at h <;> omega

theorem executeBossAction_shape (ai : AdaptiveBossAI) (bossId : String)
    (strategy : BossStrategy) (state : BossAIState)
    (hl : lookupA bossId ai.bossStates = some state) :
    ∃ ad, (executeBossAction ai bossId strategy).1 =
      { ai with bossStates := setA bossId { state with adaptations := ad } ai.bossStates } := by
  unfold executeBossAction
  rw [hl]
  exact ⟨_, rfl⟩

theorem learnFromOutcome_shape (ai : AdaptiveBossAI) (bossId strategyId : String)
    (outcome : StrategyOutcome) (state : BossAIState)
    (hl : lookupA bossId ai.bossStates = some state) :
    ∃ W ad, learnFromOutcome ai bossId strategyId outcome =
      { ai with bossStates := (setA bossId
          { state with strategyWeights := W, adaptations := ad } ai.bossStates) } := by
  unfold learnFromOutcome
  rw [hl]
  exact ⟨_, _, rfl⟩

theorem transitionPhase_shape (ai : AdaptiveBossAI) (bossId : String) (newPhase : ℝ)
    (state : BossAIState) (hl : lookupA bossId ai.bossStates = some state) :
    ∃ st' : BossAIState,
      st'.playerBehavior.predictability = state.playerBehavior.predictability
      ∧ transitionPhase ai bossId newPhase =
          { ai with bossStates := setA bossId st' ai.bossStates } := by
  unfold transitionPhase
  rw [hl]
  refine ⟨_, ?_, rfl⟩
  rfl

theorem predictability_inv_applyOp (ai : AdaptiveBossAI)
    (hai : ∀ id st, lookupA id ai.bossStates = some st →
      (0 ≤ st.playerBehavior.predictability ∧ st.playerBehavior.predictability ≤ 1)
      ∧ (((lookupA id ai.behaviorHistory).getD []).length < 20 →
          st.playerBehavior.predictability = 0.5))
    (op : BossOp) :
    ∀ id st, lookupA id (applyOp ai op).bossStates = some st →
      (0 ≤ st.playerBehavior.predictability ∧ st.playerBehavior.predictability ≤ 1)
      ∧ (((lookupA id (applyOp ai op).behaviorHistory).getD []).length < 20 →
          st.playerBehavior.predictability = 0.5) := by
  cases op with
  | init bossId maxHealth =>
    intro id st hst
    simp only [applyOp, initializeBoss] at hst ⊢
    by_cases hid : id = bossId
    · subst hid
      rw [lookupA_setA_self] at hst
      rw [(Option.some_injective _ hst).symm]
      refine ⟨⟨?_, ?_⟩, fun _ => ?_⟩ <;> norm_num [initialBossState, initialProfile]
    · rw [lookupA_setA_ne _ _ hid] at hst
      exact hai id st hst
  | update bossId action =>
    intro id st hst
    cases hl : lookupA bossId ai.bossStates with
    | none =>
      have hu : updatePlayerBehavior ai bossId action = ai := by
        unfold updatePlayerBehavior; rw [hl]
      simp only [applyOp, hu] at hst ⊢
      exact hai id st hst
    | some state =>
      obtain ⟨b3, newHistory, hpred, hlen, heq⟩ :=
        updatePlayerBehavior_shape ai bossId action state hl
      simp only [applyOp, heq] at hst ⊢
      by_cases hid : id = bossId
      · subst hid
        rw [lookupA_setA_self] at hst
        rw [(Option.some_injective _ hst).symm]
        rw [lookupA_setA_self]
        refine ⟨?_, ?_⟩
        · show 0 ≤ b3.predictability ∧ b3.predictability ≤ 1
          rw [hpred]; exact calculatePredictability_mem _
        · intro hshort
          show b3.predictability = 0.5
          rw [hpred]
          exact calculatePredictability_short _ (hlen (by simpa using hshort))
      · rw [lookupA_setA_ne _ _ hid] at hst
        rw [lookupA_setA_ne _ _ hid]
        exact hai id st hst
  | select bossId => exact hai
  | execute bossId strategy =>
    intro id st hst
    cases hl : lookupA bossId ai.bossStates with
    | none =>
      have hu : (executeBossAction ai bossId strategy).1 = ai := by
        unfold executeBossAction; rw [hl]
      simp only [applyOp, hu] at hst ⊢
      exact hai id st hst
    | some state =>
      obtain ⟨ad, heq⟩ := executeBossAction_shape ai bossId strategy state hl
      simp only [applyOp, heq] at hst ⊢
      by_cases hid : id = bossId
      · subst hid
        rw [lookupA_setA_self] at hst
        rw [(Option.some_injective _ hst).symm]
        exact hai _ state hl
      · rw [lookupA_setA_ne _ _ hid] at hst
        exact hai id st hst
  | learn bossId strategyId outcome =>
    intro id st hst
    cases hl : lookupA bossId ai.bossStates with
    | none =>
      have hu : learnFromOutcome ai bossId strategyId outcome = ai := by
        unfold learnFromOutcome; rw [hl]
      simp only [applyOp, hu] at hst ⊢
      exact hai id st hst
    | some state =>
      obtain ⟨W, ad, heq⟩ := learnFromOutcome_shape ai bossId strategyId outcome state hl
      simp only [applyOp, heq] at hst ⊢
      by_cases hid : id = bossId
      · subst hid
        rw [lookupA_setA_self] at hst
        rw [(Option.some_injective _ hst).symm]
        exact hai _ state hl
      · rw [lookupA_setA_ne _ _ hid] at hst
        exact hai id st hst
  | transition bossId newPhase =>
    intro id st hst
    cases hl : lookupA bossId ai.bossStates with
    | none =>
      have hu : transitionPhase ai bossId newPhase = ai := by
        unfold transitionPhase; rw [hl]
      simp only [applyOp, hu] at hst ⊢
      exact hai id st hst
    | some state =>
      obtain ⟨st', hpred, heq⟩ := transitionPhase_shape ai bossId newPhase state hl
      simp only [applyOp, heq] at hst ⊢
      by_cases hid : id = bossId
      · subst hid
        rw [lookupA_setA_self] at hst
        rw [(Option.some_injective _ hst).symm]
        rw [hpred]
        exact hai _ state hl
      · rw [lookupA_setA_ne _ _ hid] at hst
        exact hai id st hst

theorem predictability_inv_foldl (ops : List BossOp) :
    ∀ ai : AdaptiveBossAI,
      (∀ id st, lookupA id ai.bossStates = some st →
        (0 ≤ st.playerBehavior.predictability ∧ st.playerBehavior.predictability ≤ 1)
        ∧ (((lookupA id ai.behaviorHistory).getD []).length < 20 →
            st.playerBehavior.predictability = 0.5)) →
      ∀ id st, lookupA id (ops.foldl applyOp ai).bossStates = some st →
        (0 ≤ st.playerBehavior.predictability ∧ st.playerBehavior.predictability ≤ 1)
        ∧ (((lookupA id (ops.foldl applyOp ai).behaviorHistory).getD []).length < 20 →
            st.playerBehavior.predictability = 0.5) := by
  induction ops with
  | nil => intro ai hai; exact hai
  | cons op t ih =>
    intro ai hai
    exact ih (applyOp ai op) (predictability_inv_applyOp ai hai op)

/-- Claim C5: along every finite sequence of controller calls, every stored
boss state's `predictability` lies in [0, 1], and it equals exactly 0.5
whenever its boss's behavior history holds fewer than 20 samples. -/
theorem predictability_bounds :
    ∀ ops : List BossOp, ∀ id st, lookupA id (applyOps ops).bossStates = some st →
      (0 ≤ st.playerBehavior.predictability ∧ st.playerBehavior.predictability ≤ 1)
      ∧ (((lookupA id (applyOps ops).behaviorHistory).getD []).length < 20 →
          st.playerBehavior.predictability = 0.5) := by
  intro ops
  refine predictability_inv_foldl ops initialBossAI ?_
  intro id st hst
  simp [initialBossAI, lookupA] at hst

/-- Witness for C5: the freshly initialized boss `"b"` (empty history). -/
theorem predictability_bounds_witness :
    (0 ≤ (initialBossState "b" 100).playerBehavior.predictability
      ∧ (initialBossState "b" 100).playerBehavior.predictability ≤ 1)
    ∧ (((lookupA "b" (applyOps [BossOp.init "b" 100]).behaviorHistory).getD []).length < 20 →
        (initialBossState "b" 100).playerBehavior.predictability = 0.5) :=
  predictability_bounds [BossOp.init "b" 100] "b" (initialBossState "b" 100) rfl

/- ## Claim C1: characterization of selectStrategy and the prediction scenario -/

theorem foldl_max_bounds (t : List ℝ) (a : ℝ) :
    a ≤ t.foldl max a ∧ ∀ x ∈ t, x ≤ t.foldl max a := by
  induction t generalizing a with
  | nil => simp
  | cons y t ih =>
    rw [List.foldl_cons]
    refine ⟨le_trans (le_max_left a y) (ih (max a y)).1, ?_⟩
    intro x hx
    rcases List.mem_cons.mp hx with h | h
    · subst h; exact le_trans (le_max_right a x) (ih (max a x)).1
    · exact (ih (max a y)).2 x h

theorem foldl_max_attained (t : List ℝ) (a : ℝ) :
    t.foldl max a = a ∨ t.foldl max a ∈ t := by
  induction t generalizing a with
  | nil => left; rfl
  | cons y t ih =>
    rw [List.foldl_cons]
    rcases ih (max a y) with h | h
    · rcases max_choice a y with hm | hm
      · left; rw [h, hm]
      · right; rw [h, hm]; exact List.mem_cons_self y t
    · right; exact List.mem_cons_of_mem y h

theorem foldl_max_le_of_le (t : List ℝ) (a c : ℝ) (ha : a ≤ c) (ht : ∀ x ∈ t, x ≤ c) :
    t.foldl max a ≤ c := by
  induction t generalizing a with
  | nil => exact ha
  | cons y t ih =>
    rw [List.foldl_cons]
    exact ih (max a y) (max_le ha (ht y (List.mem_cons_self y t)))
      (fun x hx => ht x (List.mem_cons_of_mem y hx))

theorem firstIdxOf_spec (m : ℝ) (L : List ℝ) (i : ℕ) (h : firstIdxOf m L = some i) :
    L.get? i = some m ∧ ∀ j, j < i → L.get? j ≠ some m := by
  induction L generalizing i with
  | nil => simp [firstIdxOf] at h
  | cons x t ih =>
    by_cases hx : x = m
    · unfold firstIdxOf at h
      rw [if_pos hx] at h
      have hi : i = 0 := by simpa using h.symm
      subst hi
      exact ⟨by simp [hx], fun j hj => absurd hj (Nat.not_lt_zero j)⟩
    · unfold firstIdxOf at h
      rw [if_neg hx] at h
      cases hrec : firstIdxOf m t with
      | none => rw [hrec] at h; simp at h
      | some i' =>
        rw [hrec] at h
        simp only [Option.map_some'] at h
        obtain rfl : i' + 1 = i := by simpa using h
        obtain ⟨h1, h2⟩ := ih i' hrec
        refine ⟨by simpa using h1, ?_⟩
        intro j hj
        cases j with
        | zero => simpa using hx
        | succ j' =>
          rw [List.get?_cons_succ]
          exact h2 j' (by omega)

theorem firstIdxOf_mem (m : ℝ) (L : List ℝ) (h : m ∈ L) :
    ∃ i, firstIdxOf m L = some i := by
  induction L with
  | nil => simp at h
  | cons x t ih =>
    by_cases hx : x = m
    · exact ⟨0, by unfold firstIdxOf; rw [if_pos hx]⟩
    · rcases List.mem_cons.mp h with h1 | h1
      · exact absurd h1.symm hx
      · obtain ⟨i, hi⟩ := ih h1
        refine ⟨i + 1, ?_⟩
        unfold firstIdxOf
        rw [if_neg hx, hi]
        rfl

theorem scoreStrategy_zero_exists (b : PlayerBehaviorProfile) (W : List (String × ℝ)) :
    scoreStrategy b W closeGapStrategy = 0 ∨ scoreStrategy b W defensiveCounterStrategy = 0 := by
  by_cases hd : b.avgDistanceFromBoss > 200
  · right
    have hP : ¬ ∀ c ∈ defensiveCounterStrategy.conditions, condHolds b c := by
      intro hall
      have h2 := hall { metric := Metric.avgDistanceFromBoss, operator := CondOp.lt, value := 100 }
        (by simp [defensiveCounterStrategy])
      simp only [condHolds, metricValue] at h2
      linarith
    simp [scoreStrategy, hP]
  · left
    have hP : ¬ ∀ c ∈ closeGapStrategy.conditions, condHolds b c := by
      intro hall
      have h2 := hall { metric := Metric.avgDistanceFromBoss, operator := CondOp.gt, value := 200 }
        (by simp [closeGapStrategy])
      simp only [condHolds, metricValue] at h2
      exact hd h2
    simp [scoreStrategy, hP]

theorem selectStrategyFrom_char (b : PlayerBehaviorProfile) (W : List (String × ℝ)) :
    (selectStrategyFrom b W = none ↔ ∀ s ∈ strategies, scoreStrategy b W s ≤ 0)
    ∧ (∀ s, selectStrategyFrom b W = some s →
        ∃ i, strategies.get? i = some s
          ∧ 0 < scoreStrategy b W s
          ∧ (∀ t ∈ strategies, scoreStrategy b W t ≤ scoreStrategy b W s)
          ∧ (∀ j t, j < i → strategies.get? j = some t →
              scoreStrategy b W t < scoreStrategy b W s)) := by
  have hM := foldl_max_bounds
    [scoreStrategy b W defensiveCounterStrategy, scoreStrategy b W aoeSpamStrategy,
     scoreStrategy b W predictionAttackStrategy, scoreStrategy b W burstDamageStrategy]
    (scoreStrategy b W closeGapStrategy)
  set M := [scoreStrategy b W defensiveCounterStrategy, scoreStrategy b W aoeSpamStrategy,
     scoreStrategy b W predictionAttackStrategy, scoreStrategy b W burstDamageStrategy].foldl
     max (scoreStrategy b W closeGapStrategy) with hMdef
  have heq : selectStrategyFrom b W =
      (if M = 0 then none
       else match firstIdxOf M (strategies.map (scoreStrategy b W)) with
         | some i => strategies.get? i
         | none => none) := rfl
  have hmem_le : ∀ s ∈ strategies, scoreStrategy b W s ≤ M := by
    intro s hs
    fin_cases hs
    · exact hM.1
    · exact hM.2 _ (by simp)
    · exact hM.2 _ (by simp)
    · exact hM.2 _ (by simp)
    · exact hM.2 _ (by simp)
  have hM0 : 0 ≤ M := by
    rcases scoreStrategy_zero_exists b W with h | h
    · calc (0:ℝ) = scoreStrategy b W closeGapStrategy := h.symm
        _ ≤ M := hmem_le _ (by simp [strategies])
    · calc (0:ℝ) = scoreStrategy b W defensiveCounterStrategy := h.symm
        _ ≤ M := hmem_le _ (by simp [strategies])
  have hMscores : M ∈ strategies.map (scoreStrategy b W) := by
    rcases foldl_max_attained
      [scoreStrategy b W defensiveCounterStrategy, scoreStrategy b W aoeSpamStrategy,
       scoreStrategy b W predictionAttackStrategy, scoreStrategy b W burstDamageStrategy]
      (scoreStrategy b W closeGapStrategy) with h | h
    · rw [← hMdef] at h; rw [h]; simp [strategies]
    · rw [← hMdef] at h; simp [strategies]
      simp at h
      tauto
  constructor
  · constructor
    · intro hnone
      rw [heq] at hnone
      by_cases hMz : M = 0
      · intro s hs
        have := hmem_le s hs
        rw [hMz] at this
        exact this
      · rw [if_neg hMz] at hnone
        obtain ⟨i, hi⟩ := firstIdxOf_mem M _ hMscores
        rw [hi] at hnone
        change strategies.get? i = none at hnone
        have h1 := (firstIdxOf_spec M _ i hi).1
        obtain ⟨hlt, -⟩ := List.get?_eq_some.mp h1
        rw [List.length_map] at hlt
        rw [List.get?_eq_get hlt] at hnone
        exact Option.noConfusion hnone
    · intro hall
      have hMle : M ≤ 0 := by
        rw [hMdef]
        refine foldl_max_le_of_le _ _ _ (hall _ (by simp [strategies])) ?_
        intro x hx
        simp at hx
        rcases hx with h | h | h | h <;> rw [h] <;> exact hall _ (by simp [strategies])
      rw [heq, if_pos (le_antisymm hMle hM0)]
  · intro s hsome
    rw [heq] at hsome
    by_cases hMz : M = 0
    · rw [if_pos hMz] at hsome; exact Option.noConfusion hsome
    · rw [if_neg hMz] at hsome
      cases hfi : firstIdxOf M (strategies.map (scoreStrategy b W)) with
      | none => rw [hfi] at hsome; exact Option.noConfusion hsome
      | some i =>
        rw [hfi] at hsome
        change strategies.get? i = some s at hsome
        obtain ⟨hgi, hfirst⟩ := firstIdxOf_spec M _ i hfi
        have hfs : scoreStrategy b W s = M := by
          rw [List.get?_map, hsome] at hgi
          simpa using hgi
        have hMpos : 0 < M := lt_of_le_of_ne hM0 (Ne.symm hMz)
        refine ⟨i, hsome, ?_, ?_, ?_⟩
        · rw [hfs]; exact hMpos
        · intro t ht; rw [hfs]; exact hmem_le t ht
        · intro j t hj hgj
          have hne := hfirst j hj
          have hjm : (strategies.map (scoreStrategy b W)).get? j = some (scoreStrategy b W t) := by
            rw [List.get?_map, hgj]; rfl
          have hftne : scoreStrategy b W t ≠ M := by
            intro hc
            exact hne (by rw [hjm, hc])
          have hfle : scoreStrategy b W t ≤ M := hmem_le t (List.get?_mem hgj)
          rw [hfs]
          exact lt_of_le_of_ne hfle hftne

theorem scoreStrategy_zero_of_unmet (b : PlayerBehaviorProfile) (W : List (String × ℝ))
    (s : BossStrategy) (c : StrategyCondition) (hc : c ∈ s.conditions)
    (hnc : ¬ condHolds b c) : scoreStrategy b W s = 0 := by
  have hP : ¬ ∀ c ∈ s.conditions, condHolds b c := fun hall => hnc (hall c hc)
  simp [scoreStrategy, hP]

theorem selectStrategy_scenario :
    selectStrategy scenarioBossAI "boss-1" = some predictionAttackStrategy := by
  have hsel : selectStrategy scenarioBossAI "boss-1" =
      selectStrategyFrom scenarioProfile (initialBossState "boss-1" 100).strategyWeights := rfl
  set W := (initialBossState "boss-1" 100).strategyWeights with hW
  have hcg : scoreStrategy scenarioProfile W closeGapStrategy = 0 := by
    refine scoreStrategy_zero_of_unmet _ _ _
      { metric := Metric.avgDistanceFromBoss, operator := CondOp.gt, value := 200 }
      (by simp [closeGapStrategy]) ?_
    intro h
    simp only [condHolds, metricValue] at h
    norm_num [scenarioProfile, initialProfile] at h
  have hdc : scoreStrategy scenarioProfile W defensiveCounterStrategy = 0 := by
    refine scoreStrategy_zero_of_unmet _ _ _
      { metric := Metric.attackFrequency, operator := CondOp.gt, value := 2 }
      (by simp [defensiveCounterStrategy]) ?_
    intro h
    simp only [condHolds, metricValue] at h
    norm_num [scenarioProfile, initialProfile] at h
  have hao : scoreStrategy scenarioProfile W aoeSpamStrategy = 0 := by
    refine scoreStrategy_zero_of_unmet _ _ _
      { metric := Metric.dodgeFrequency, operator := CondOp.gt, value := 3 }
      (by simp [aoeSpamStrategy]) ?_
    intro h
    simp only [condHolds, metricValue] at h
    norm_num [scenarioProfile, initialProfile] at h
  have hbd : scoreStrategy scenarioProfile W burstDamageStrategy = 0 := by
    refine scoreStrategy_zero_of_unmet _ _ _
      { metric := Metric.healUsage, operator := CondOp.gt, value := 3 }
      (by simp [burstDamageStrategy]) ?_
    intro h
    simp only [condHolds, metricValue] at h
    norm_num [scenarioProfile, initialProfile] at h
  have hac : ∀ c ∈ predictionAttackStrategy.conditions, condHolds scenarioProfile c := by
    intro c hc
    simp only [predictionAttackStrategy, List.mem_singleton] at hc
    subst hc
    simp only [condHolds, metricValue]
    norm_num [scenarioProfile, initialProfile]
  have hwt : weightOrOne W "prediction-attack" = 1 := by
    have hlk : lookupA "prediction-attack" W = some 1.0 := rfl
    unfold weightOrOne
    rw [hlk]
    norm_num
  have hpa : scoreStrategy scenarioProfile W predictionAttackStrategy = 10 := by
    unfold scoreStrategy
    rw [if_pos hac]
    simp only [predictionAttackStrategy]
    rw [hwt]
    norm_num
  have hchar := selectStrategyFrom_char scenarioProfile W
  rw [hsel]
  cases hres : selectStrategyFrom scenarioProfile W with
  | none =>
    have h10 := (hchar.1.mp hres) predictionAttackStrategy (by simp [strategies])
    rw [hpa] at h10
    norm_num at h10
  | some s =>
    obtain ⟨i, hgi, hpos, hle, hfirst⟩ := hchar.2 s hres
    obtain ⟨hlt, -⟩ := List.get?_eq_some.mp hgi
    have hi5 : i < 5 := by simpa [strategies] using hlt
    interval_cases i
    · have hs : s = closeGapStrategy := by
        change some closeGapStrategy = some s at hgi
        exact (Option.some_injective _ hgi).symm
      rw [hs, hcg] at hpos
      exact absurd hpos (lt_irrefl 0)
    · have hs : s = defensiveCounterStrategy := by
        change some defensiveCounterStrategy = some s at hgi
        exact (Option.some_injective _ hgi).symm
      rw [hs, hdc] at hpos
      exact absurd hpos (lt_irrefl 0)
    · have hs : s = aoeSpamStrategy := by
        change some aoeSpamStrategy = some s at hgi
        exact (Option.some_injective _ hgi).symm
      rw [hs, hao] at hpos
      exact absurd hpos (lt_irrefl 0)
    · have hs : s = predictionAttackStrategy := by
        change some predictionAttackStrategy = some s at hgi
        exact (Option.some_injective _ hgi).symm
      rw [hs]
    · have hs : s = burstDamageStrategy := by
        change some burstDamageStrategy = some s at hgi
        exact (Option.some_injective _ hgi).symm
      rw [hs, hbd] at hpos
      exact absurd hpos (lt_irrefl 0)

/-- Claim C1: `selectStrategy` scores every catalog strategy (0 on any unmet
condition, else priority times learned weight), returns null exactly when no
strategy scores above 0, and otherwise returns the first strategy attaining
the maximum score (catalog order breaks ties); on the scenario profile
`{predictability: 0.9, avgDistanceFromBoss: 50}` with all weights 1.0 it
returns the Prediction Attack strategy. -/
theorem selectStrategy_max_rule :
    (∀ (b : PlayerBehaviorProfile) (W : List (String × ℝ)),
      (selectStrategyFrom b W = none ↔ ∀ s ∈ strategies, scoreStrategy b W s ≤ 0)
      ∧ (∀ s, selectStrategyFrom b W = some s →
          ∃ i, strategies.get? i = some s
            ∧ 0 < scoreStrategy b W s
            ∧ (∀ t ∈ strategies, scoreStrategy b W t ≤ scoreStrategy b W s)
            ∧ (∀ j t, j < i → strategies.get? j = some t →
                scoreStrategy b W t < scoreStrategy b W s)))
    ∧ selectStrategy scenarioBossAI "boss-1" = some predictionAttackStrategy :=
  ⟨selectStrategyFrom_char, selectStrategy_scenario⟩

/-- Witness for C1: on the all-defaults profile no strategy is eligible, so
the selection (applied through the theorem's null characterization) is null —
the spec's "no eligible strategy" scenario. -/
theorem selectStrategy_max_rule_witness :
    selectStrategyFrom initialProfile [] = none := by
  refine (selectStrategy_max_rule.1 initialProfile []).1.mpr ?_
  intro s hs
  fin_cases hs
  · rw [scoreStrategy_zero_of_unmet initialProfile []
      _ { metric := Metric.avgDistanceFromBoss, operator := CondOp.gt, value := 200 }
      (by simp [closeGapStrategy]) (by
        intro h
        simp only [condHolds, metricValue] at h
        norm_num [initialProfile] at h)]
  · rw [scoreStrategy_zero_of_unmet initialProfile []
      _ { metric := Metric.attackFrequency, operator := CondOp.gt, value := 2 }
      (by simp [defensiveCounterStrategy]) (by
        intro h
        simp only [condHolds, metricValue] at h
        norm_num [initialProfile] at h)]
  · rw [scoreStrategy_zero_of_unmet initialProfile []
      _ { metric := Metric.dodgeFrequency, operator := CondOp.gt, value := 3 }
      (by simp [aoeSpamStrategy]) (by
        intro h
        simp only [condHolds, metricValue] at h
        norm_num [initialProfile] at h)]
  · rw [scoreStrategy_zero_of_unmet initialProfile []
      _ { metric := Metric.predictability, operator := CondOp.gt, value := 0.7 }
      (by simp [predictionAttackStrategy]) (by
        intro h
        simp only [condHolds, metricValue] at h
        norm_num [initialProfile] at h)]
  · rw [scoreStrategy_zero_of_unmet initialProfile []
      _ { metric := Metric.healUsage, operator := CondOp.gt, value := 3 }
      (by simp [burstDamageStrategy]) (by
        intro h
        simp only [condHolds, metricValue] at h
        norm_num [initialProfile] at h)]

/- ## Grid lemmas for the layout claims -/

theorem length_mkGrid (n : ℕ) (f : ℕ → ℕ → ℕ) : (mkGrid n f).length = n := by
  simp [mkGrid]

theorem get?_mkGrid (n : ℕ) (f : ℕ → ℕ → ℕ) {y : ℕ} (hy : y < n) :
    (mkGrid n f).get? y = some ((List.range n).map (f y)) := by
  unfold mkGrid
  rw [List.get?_map, List.get?_eq_get (by simpa using hy)]
  simp

theorem cell_mkGrid (n : ℕ) (f : ℕ → ℕ → ℕ) {y x : ℕ} (hy : y < n) (hx : x < n) :
    cell (mkGrid n f) y x = f y x := by
  unfold cell
  rw [get?_mkGrid n f hy]
  simp only [Option.getD_some]
  rw [List.get?_map, List.get?_eq_get (by simpa using hx)]
  simp

theorem cell_caStep_border (n : ℕ) (g : List (List ℕ)) {y x : ℕ} (hy : y < n) (hx : x < n)
    (hb : ¬ interiorCell n y x) : cell (caStep n g) y x = cell g y x := by
  unfold caStep
  rw [cell_mkGrid n _ hy hx, if_neg hb]

theorem not_interiorCell_top (n x : ℕ) : ¬ interiorCell n 0 x := by
  unfold interiorCell; omega

theorem not_interiorCell_bottom (n x : ℕ) (hn : 1 ≤ n) : ¬ interiorCell n (n - 1) x := by
  unfold interiorCell; omega

theorem count_set_two (l : List ℕ) (m : ℕ) (hl : ∀ v ∈ l, v = 0) (hm : m < l.length) :
    (l.set m 2).count 2 = 1 := by
  induction l generalizing m with
  | nil => simp at hm
  | cons v t ih =>
    cases m with
    | zero =>
      simp only [List.set]
      rw [List.count_cons]
      have h0 : (2 : ℕ) ∉ t := by
        intro hmem
        exact absurd (hl 2 (List.mem_cons_of_mem v hmem)) (by norm_num)
      rw [List.count_eq_zero.mpr h0]
      simp
    | succ m' =>
      simp only [List.set]
      rw [List.count_cons]
      have hv : v = 0 := hl v (List.mem_cons_self v t)
      rw [ih m' (fun w hw => hl w (List.mem_cons_of_mem v hw)) (by simpa using hm)]
      simp [hv]

theorem mem_map_range_zero {n : ℕ} {f : ℕ → ℕ} (hf : ∀ x < n, f x = 0) :
    ∀ v ∈ (List.range n).map f, v = 0 := by
  intro v hv
  obtain ⟨x, hx, rfl⟩ := List.mem_map.mp hv
  exact hf x (List.mem_range.mp hx)

/- ## Floor tiles and placement lemmas -/

theorem mem_rowTiles {p : Pos} (y x0 : ℕ) (row : List ℕ) (h : p ∈ rowTiles y x0 row) :
    p.y = y ∧ ∃ k, p.x = x0 + k ∧ row.get? k = some 1 := by
  induction row generalizing x0 with
  | nil => simp [rowTiles] at h
  | cons v t ih =>
    unfold rowTiles at h
    by_cases hv : v = 1
    · rw [if_pos hv] at h
      rcases List.mem_cons.mp h with h1 | h1
      · subst h1
        exact ⟨rfl, 0, by simp, by simp [hv]⟩
      · obtain ⟨hy, k, hk, hget⟩ := ih (x0 + 1) h1
        exact ⟨hy, k + 1, by omega, by simpa using hget⟩
    · rw [if_neg hv] at h
      obtain ⟨hy, k, hk, hget⟩ := ih (x0 + 1) h
      exact ⟨hy, k + 1, by omega, by simpa using hget⟩

theorem mem_floorTilesGo {p : Pos} (y : ℕ) (rows : List (List ℕ))
    (h : p ∈ floorTilesGo y rows) :
    ∃ k row, p.y = y + k ∧ rows.get? k = some row ∧ row.get? p.x = some 1 := by
  induction rows generalizing y with
  | nil => simp [floorTilesGo] at h
  | cons row rest ih =>
    unfold floorTilesGo at h
    rcases List.mem_append.mp h with h1 | h1
    · obtain ⟨hy, k, hk, hget⟩ := mem_rowTiles y 0 row h1
      refine ⟨0, row, by omega, by simp, ?_⟩
      rw [hk]
      simpa using hget
    · obtain ⟨k, row', hy, hget, hget'⟩ := ih (y + 1) h1
      exact ⟨k + 1, row', by omega, by simpa using hget, hget'⟩

theorem cell_of_mem_getFloorTiles {p : Pos} (g : List (List ℕ))
    (h : p ∈ getFloorTiles g) : cell g p.y p.x = 1 := by
  obtain ⟨k, row, hy, hget, hget'⟩ := mem_floorTilesGo 0 g h
  unfold cell
  have hk : p.y = k := by omega
  rw [hk, hget]
  simp only [Option.getD_some]
  rw [hget']
  rfl

theorem ratIdx_lt (q : ℚ) (n : ℕ) (h0 : 0 ≤ q) (h1 : q < 1) (hn : 0 < n) :
    ratIdx q n < n := by
  unfold ratIdx
  have hlt : Int.floor (q * n) < (n : ℤ) := by
    rw [Int.floor_lt]
    push_cast
    have hn' : (0 : ℚ) < n := by exact_mod_cast hn
    simpa using mul_lt_mul_of_pos_right h1 hn'
  have hge : 0 ≤ Int.floor (q * n) := by
    rw [Int.floor_nonneg]
    positivity
  omega

theorem pickPositions_subset (roll : ℕ → ℚ) (hroll : ∀ i, 0 ≤ roll i ∧ roll i < 1) :
    ∀ (fuel i : ℕ) (tiles : List Pos), ∀ p ∈ pickPositions roll i fuel tiles, p ∈ tiles := by
  intro fuel
  induction fuel with
  | zero => intro i tiles p hp; simp [pickPositions] at hp
  | succ fuel ih =>
    intro i tiles p hp
    cases tiles with
    | nil => simp [pickPositions] at hp
    | cons t ts =>
      unfold pickPositions at hp
      have hidx : ratIdx (roll i) (t :: ts).length < (t :: ts).length :=
        ratIdx_lt (roll i) _ (hroll i).1 (hroll i).2 (by simp)
      rcases List.mem_cons.mp hp with h1 | h1
      · rw [h1, List.getD_eq_get?, List.get?_eq_get hidx]
        exact List.get_mem _ _ _
      · exact List.eraseIdx_subset _ _ (ih (i + 1) _ p h1)

theorem mem_positions_of_mem_enum_map {α β : Type} {f : ℕ × α → β} {l : List α} {b : β}
    (hb : b ∈ l.enum.map f) : ∃ q ∈ l.enum, b = f q ∧ q.2 ∈ l := by
  obtain ⟨q, hq, rfl⟩ := List.mem_map.mp hb
  refine ⟨q, hq, rfl, ?_⟩
  have : q.2 ∈ l.enum.map Prod.snd := List.mem_map.mpr ⟨q, hq, rfl⟩
  rwa [List.enum_map_snd] at this

/- ## Claim C3: layout validity of every generated room -/

theorem rowlen_mkGrid (n : ℕ) (f : ℕ → ℕ → ℕ) {y : ℕ} (hy : y < n) :
    (((mkGrid n f).get? y).getD []).length = n := by
  rw [get?_mkGrid n f hy]
  simp

theorem get?_isSome_of_lt {g : List (List ℕ)} {y : ℕ} (hy : y < g.length) :
    g.get? y = some ((g.get? y).getD []) := by
  cases hc : g.get? y with
  | none => exact absurd (List.get?_eq_none.mp hc) (by omega)
  | some r => simp

theorem row_all_zero {g : List (List ℕ)} {y n : ℕ}
    (hlen : ((g.get? y).getD []).length = n)
    (hcells : ∀ x < n, cell g y x = 0) :
    ∀ v ∈ (g.get? y).getD [], v = 0 := by
  intro v hv
  obtain ⟨x, hx⟩ := List.mem_iff_get?.mp hv
  have hxlt : x < n := by
    have := (List.get?_eq_some.mp hx).1
    omega
  have hc := hcells x hxlt
  unfold cell at hc
  rw [hx] at hc
  simpa using hc

theorem layout_door_rows (n : ℕ) (hn : 2 ≤ n) (seedF : ℕ → ℕ → ℕ)
    (hseed : ∀ y x, ¬ interiorCell n y x → seedF y x = 0) :
    (setCell (setCell (caStep n (caStep n (caStep n (mkGrid n seedF)))) 0 (n / 2) 2)
        (n - 1) (n / 2) 2).length = n
    ∧ (((setCell (setCell (caStep n (caStep n (caStep n (mkGrid n seedF)))) 0 (n / 2) 2)
        (n - 1) (n / 2) 2).get? 0).getD []).count 2 = 1
    ∧ (((setCell (setCell (caStep n (caStep n (caStep n (mkGrid n seedF)))) 0 (n / 2) 2)
        (n - 1) (n / 2) 2).get? (n - 1)).getD []).count 2 = 1 := by
  have hn0 : 0 < n := by omega
  have hb0 : n - 1 < n := by omega
  set G3 := caStep n (caStep n (caStep n (mkGrid n seedF))) with hG3
  -- border cells of every smoothing stage are zero
  have htop : ∀ x < n, cell G3 0 x = 0 := by
    intro x hx
    rw [hG3, cell_caStep_border n _ hn0 hx (not_interiorCell_top n x),
      cell_caStep_border n _ hn0 hx (not_interiorCell_top n x),
      cell_caStep_border n _ hn0 hx (not_interiorCell_top n x),
      cell_mkGrid n _ hn0 hx]
    exact hseed 0 x (not_interiorCell_top n x)
  have hbot : ∀ x < n, cell G3 (n - 1) x = 0 := by
    intro x hx
    rw [hG3, cell_caStep_border n _ hb0 hx (not_interiorCell_bottom n x (by omega)),
      cell_caStep_border n _ hb0 hx (not_interiorCell_bottom n x (by omega)),
      cell_caStep_border n _ hb0 hx (not_interiorCell_bottom n x (by omega)),
      cell_mkGrid n _ hb0 hx]
    exact hseed (n - 1) x (not_interiorCell_bottom n x (by omega))
  have hlen3 : G3.length = n := by rw [hG3]; unfold caStep; exact length_mkGrid n _
  have hrl0 : ((G3.get? 0).getD []).length = n := by
    rw [hG3]; unfold caStep; exact rowlen_mkGrid n _ hn0
  have hrlb : ((G3.get? (n - 1)).getD []).length = n := by
    rw [hG3]; unfold caStep; exact rowlen_mkGrid n _ hb0
  have hz0 : ∀ v ∈ (G3.get? 0).getD [], v = 0 := row_all_zero hrl0 htop
  have hzb : ∀ v ∈ (G3.get? (n - 1)).getD [], v = 0 := row_all_zero hrlb hbot
  have hmid : n / 2 < n := Nat.div_lt_self hn0 one_lt_two
  set A := setCell G3 0 (n / 2) 2 with hA
  set L := setCell A (n - 1) (n / 2) 2 with hL
  have hlenA : A.length = n := by rw [hA]; unfold setCell; rw [List.length_set, hlen3]
  have hlenL : L.length = n := by rw [hL]; unfold setCell; rw [List.length_set, hlenA]
  -- row 0 of A and of L
  have hA0 : A.get? 0 = some (((G3.get? 0).getD []).set (n / 2) 2) := by
    rw [hA]
    unfold setCell
    rw [List.get?_set_eq, get?_isSome_of_lt (by omega)]
    rfl
  have hL0 : L.get? 0 = A.get? 0 := by
    rw [hL]
    unfold setCell
    exact List.get?_set_ne _ _ (by omega)
  -- bottom row of A is that of G3, and of L is it with the door
  have hAb : A.get? (n - 1) = G3.get? (n - 1) := by
    rw [hA]
    unfold setCell
    exact List.get?_set_ne _ _ (by omega)
  have hLb : L.get? (n - 1) = some (((G3.get? (n - 1)).getD []).set (n / 2) 2) := by
    rw [hL]
    unfold setCell
    rw [List.get?_set_eq, hAb, get?_isSome_of_lt (by omega)]
    rfl
  refine ⟨hlenL, ?_, ?_⟩
  · rw [hL0, hA0]
    simp only [Option.getD_some]
    exact count_set_two _ _ hz0 (by omega)
  · rw [hLb]
    simp only [Option.getD_some]
    exact count_set_two _ _ hzb (by omega)

theorem gridSize_ge (d : ℚ) (hd : 0 ≤ d) : 10 ≤ gridSize d := by
  unfold gridSize
  have h10 : (10 : ℤ) ≤ Int.floor (10 + d * 2) := by
    rw [Int.le_floor]
    push_cast
    linarith
  omega

theorem generateLayout_spec (roomType : RoomType) (d : ℚ) (cellRoll : ℕ → ℕ → ℚ)
    (hd : 0 ≤ d) :
    (generateLayout roomType d cellRoll).length = gridSize d
    ∧ (((generateLayout roomType d cellRoll).get? 0).getD []).count 2 = 1
    ∧ (((generateLayout roomType d cellRoll).get? (gridSize d - 1)).getD []).count 2 = 1 := by
  have hn : 2 ≤ gridSize d := le_trans (by norm_num) (gridSize_ge d hd)
  exact layout_door_rows (gridSize d) hn _ (fun y x hb => if_neg hb)

theorem placed_on_floor (roll : ℕ → ℚ) (hroll : ∀ i, 0 ≤ roll i ∧ roll i < 1)
    (fuel i : ℕ) (layout : List (List ℕ)) :
    ∀ p ∈ pickPositions roll i fuel (getFloorTiles layout), cell layout p.y p.x = 1 :=
  fun p hp =>
    cell_of_mem_getFloorTiles layout (pickPositions_subset roll hroll fuel i _ p hp)

theorem placeEnemies_on_floor (layout : List (List ℕ)) (theme : DungeonTheme)
    (params : DungeonGenerationParams) (roomType : RoomType) (rand : RoomRand)
    (hv : rand.Valid) :
    ∀ e ∈ placeEnemies layout theme params roomType rand,
      cell layout e.position.y e.position.x = 1 := by
  intro e he
  unfold placeEnemies at he
  split at he
  · simp at he
  · obtain ⟨q, hq, heq, hq2⟩ := mem_positions_of_mem_enum_map he
    have : e.position = q.2 := by rw [heq]
    rw [this]
    exact cell_of_mem_getFloorTiles layout
      (pickPositions_subset rand.enemyTile hv.2.2.1 _ _ _ q.2 hq2)

theorem placeItems_on_floor (layout : List (List ℕ)) (theme : DungeonTheme)
    (playerLevel : ℚ) (roomType : RoomType) (rand : RoomRand) (hv : rand.Valid) :
    ∀ it ∈ placeItems layout theme playerLevel roomType rand,
      cell layout it.position.y it.position.x = 1 := by
  intro it hit
  unfold placeItems at hit
  obtain ⟨q, hq, heq, hq2⟩ := mem_positions_of_mem_enum_map hit
  have : it.position = q.2 := by rw [heq]
  rw [this]
  exact cell_of_mem_getFloorTiles layout
    (pickPositions_subset rand.itemTile hv.2.2.2.2.2.2.2.1 _ _ _ q.2 hq2)

theorem placeHazards_on_floor (layout : List (List ℕ)) (theme : DungeonTheme)
    (difficulty : ℚ) (rand : RoomRand) (hv : rand.Valid) :
    ∀ hz ∈ placeHazards layout theme difficulty rand,
      cell layout hz.position.y hz.position.x = 1 := by
  intro hz hhz
  unfold placeHazards at hhz
  obtain ⟨q, hq, heq, hq2⟩ := mem_positions_of_mem_enum_map hhz
  have : hz.position = q.2 := by rw [heq]
  rw [this]
  exact cell_of_mem_getFloorTiles layout
    (pickPositions_subset rand.hazardTile hv.2.2.2.2.2.2.2.2.2.2.1 _ _ _ q.2 hq2)

/-- Claim C3: for every generated room with `desiredDifficulty ≥ 0` (any
theme, room index, total, generator state and random draws), the layout has
exactly one door cell (value 2) in its top border row and exactly one in its
bottom border row, and every placed enemy, item and hazard sits on a floor
cell (value 1) — never on a wall. -/
theorem generated_room_layout_valid (params : DungeonGenerationParams)
    (theme : DungeonTheme) (roomIndex : ℕ) (totalRooms : ℤ)
    (gen : AIDungeonGenerator) (rand : RoomRand)
    (hd : 0 ≤ params.desiredDifficulty) (hv : rand.Valid) :
    (generateRoom params theme roomIndex totalRooms gen rand).layout.length
        = gridSize params.desiredDifficulty
    ∧ (((generateRoom params theme roomIndex totalRooms gen rand).layout.get? 0).getD
        []).count 2 = 1
    ∧ (((generateRoom params theme roomIndex totalRooms gen rand).layout.get?
        (gridSize params.desiredDifficulty - 1)).getD []).count 2 = 1
    ∧ (∀ e ∈ (generateRoom params theme roomIndex totalRooms gen rand).enemies,
        cell (generateRoom params theme roomIndex totalRooms gen rand).layout
          e.position.y e.position.x = 1)
    ∧ (∀ it ∈ (generateRoom params theme roomIndex totalRooms gen rand).items,
        cell (generateRoom params theme roomIndex totalRooms gen rand).layout
          it.position.y it.position.x = 1)
    ∧ (∀ hz ∈ (generateRoom params theme roomIndex totalRooms gen rand).hazards,
        cell (generateRoom params theme roomIndex totalRooms gen rand).layout
          hz.position.y hz.position.x = 1) := by
  obtain ⟨h1, h2, h3⟩ := generateLayout_spec
    (predictRoomType gen params roomIndex totalRooms rand.safeRoll)
    params.desiredDifficulty rand.cellRoll hd
  exact ⟨h1, h2, h3,
    placeEnemies_on_floor _ theme params _ rand hv,
    placeItems_on_floor _ theme params.playerLevel _ rand hv,
    placeHazards_on_floor _ theme params.desiredDifficulty rand hv⟩

theorem zeroRand_valid : zeroRand.Valid := by
  unfold RoomRand.Valid zeroRand
  norm_num

/-- Witness for C3: the concrete room generated from `sampleParams`
(difficulty 0), the crypt theme and the all-zero random source. -/
theorem generated_room_layout_valid_witness :
    (((generateRoom sampleParams cryptTheme 0 5 initialGenerator zeroRand).layout.get?
        0).getD []).count 2 = 1
    ∧ (∀ e ∈ (generateRoom sampleParams cryptTheme 0 5 initialGenerator zeroRand).enemies,
        cell (generateRoom sampleParams cryptTheme 0 5 initialGenerator zeroRand).layout
          e.position.y e.position.x = 1) := by
  have h := generated_room_layout_valid sampleParams cryptTheme 0 5 initialGenerator
    zeroRand (by norm_num [sampleParams]) zeroRand_valid
  exact ⟨h.2.1, h.2.2.2.1⟩

/- ## Claim C9: theme selection uses a strict within-3 test -/

/-- Counterexample to C9 as stated: at player level 10 the volcano theme is
the first whose difficulty is within 3 (|7 − 10| ≤ 3, while the crypt theme
is not within 3), yet `generateDungeon` selects the void theme — the source
test `Math.abs(difficulty - playerLevel) < 3` is strict, so a difference of
exactly 3 does NOT match. -/
theorem selectTheme_exact_three_counterexample :
    |volcanoTheme.difficulty - levelTenParams.playerLevel| ≤ 3
    ∧ ¬(|cryptTheme.difficulty - levelTenParams.playerLevel| ≤ 3)
    ∧ dungeonThemes = [cryptTheme, volcanoTheme, voidTheme]
    ∧ levelTenParams.theme = none
    ∧ (generateDungeon initialGenerator levelTenParams 0 (fun _ => zeroRand)).1.theme
        = voidTheme
    ∧ voidTheme ≠ volcanoTheme := by
  have hlvl : levelTenParams.playerLevel = 10 := rfl
  refine ⟨?_, ?_, rfl, rfl, ?_, ?_⟩
  · rw [hlvl]
    simp only [volcanoTheme]
    rw [abs_le]
    norm_num
  · rw [hlvl]
    simp only [cryptTheme]
    intro h
    rw [abs_le] at h
    norm_num at h
  · have hsel : selectTheme levelTenParams = voidTheme := by
      unfold selectTheme dungeonThemes
      rw [List.find?_cons_of_neg _ (by
          simp only [decide_eq_true_eq, cryptTheme, hlvl]
          intro h
          rw [abs_lt] at h
          norm_num at h),
        List.find?_cons_of_neg _ (by
          simp only [decide_eq_true_eq, volcanoTheme, hlvl]
          intro h
          rw [abs_lt] at h
          norm_num at h),
        List.find?_cons_of_pos _ (by
          simp only [decide_eq_true_eq, voidTheme, hlvl]
          rw [abs_lt]
          norm_num)]
      rfl
    unfold generateDungeon
    simp only [Option.getD_none]
    exact hsel
  · intro h
    have := congrArg DungeonTheme.id h
    simp [voidTheme, volcanoTheme] at this

/-- Claim C9 amended: with no theme supplied, `generateDungeon` uses
`selectTheme`, which picks the first predefined theme whose difficulty is
STRICTLY within 3 of `playerLevel` (|difficulty − playerLevel| < 3; a
difference of exactly 3 does not match), defaulting to the first theme when
none matches. -/
theorem selectTheme_strict_within_three (params : DungeonGenerationParams)
    (roomCount : ℤ) (gen : AIDungeonGenerator) (rands : ℕ → RoomRand)
    (hnone : params.theme = none) :
    (generateDungeon gen params roomCount rands).1.theme = selectTheme params
    ∧ (∀ i t, dungeonThemes.get? i = some t →
        |t.difficulty - params.playerLevel| < 3 →
        (∀ j s, j < i → dungeonThemes.get? j = some s →
          ¬(|s.difficulty - params.playerLevel| < 3)) →
        selectTheme params = t)
    ∧ ((∀ t ∈ dungeonThemes, ¬(|t.difficulty - params.playerLevel| < 3)) →
        selectTheme params = cryptTheme) := by
  refine ⟨?_, ?_, ?_⟩
  · unfold generateDungeon
    rw [hnone]
    rfl
  · intro i t hgt hmatch hearlier
    have hlt : i < 3 := by
      have := (List.get?_eq_some.mp hgt).1
      simpa [dungeonThemes] using this
    unfold selectTheme dungeonThemes
    interval_cases i
    · change some cryptTheme = some t at hgt
      rw [List.find?_cons_of_pos _ (by
        simp only [decide_eq_true_eq]
        exact (Option.some_injective _ hgt) ▸ hmatch)]
      simpa using hgt
    · change some volcanoTheme = some t at hgt
      rw [List.find?_cons_of_neg _ (by
          simp only [decide_eq_true_eq]
          exact hearlier 0 cryptTheme (by omega) rfl),
        List.find?_cons_of_pos _ (by
          simp only [decide_eq_true_eq]
          exact (Option.some_injective _ hgt) ▸ hmatch)]
      simpa using hgt
    · change some voidTheme = some t at hgt
      rw [List.find?_cons_of_neg _ (by
          simp only [decide_eq_true_eq]
          exact hearlier 0 cryptTheme (by omega) rfl),
        List.find?_cons_of_neg _ (by
          simp only [decide_eq_true_eq]
          exact hearlier 1 volcanoTheme (by omega) rfl),
        List.find?_cons_of_pos _ (by
          simp only [decide_eq_true_eq]
          exact (Option.some_injective _ hgt) ▸ hmatch)]
      simpa using hgt
  · intro hall
    unfold selectTheme dungeonThemes
    rw [List.find?_cons_of_neg _ (by
        simp only [decide_eq_true_eq]
        exact hall cryptTheme (by simp [dungeonThemes])),
      List.find?_cons_of_neg _ (by
        simp only [decide_eq_true_eq]
        exact hall volcanoTheme (by simp [dungeonThemes])),
      List.find?_cons_of_neg _ (by
        simp only [decide_eq_true_eq]
        exact hall voidTheme (by simp [dungeonThemes]))]
    rfl

/-- Witness for the amended C9: at `sampleParams` (player level 1) the crypt
theme is the first strict match, and the dungeon theme equals it. -/
theorem selectTheme_strict_within_three_witness :
    selectTheme sampleParams = cryptTheme
    ∧ (generateDungeon initialGenerator sampleParams 0 (fun _ => zeroRand)).1.theme
        = selectTheme sampleParams := by
  have h := selectTheme_strict_within_three sampleParams 0 initialGenerator
    (fun _ => zeroRand) rfl
  refine ⟨?_, h.1⟩
  refine h.2.1 0 cryptTheme rfl ?_ (fun j s hj _ => absurd hj (Nat.not_lt_zero j))
  have : cryptTheme.difficulty = 3 := rfl
  rw [this, show sampleParams.playerLevel = 1 from rfl]
  rw [abs_lt]
  norm_num

/- ## Claim C10: distinctness within a category, collisions across -/

theorem rowTiles_x_ge (y x0 : ℕ) (row : List ℕ) :
    ∀ p ∈ rowTiles y x0 row, x0 ≤ p.x := by
  induction row generalizing x0 with
  | nil => intro p hp; simp [rowTiles] at hp
  | cons v t ih =>
    intro p hp
    unfold rowTiles at hp
    by_cases hv : v = 1
    · rw [if_pos hv] at hp
      rcases List.mem_cons.mp hp with h1 | h1
      · subst h1; exact le_refl x0
      · exact le_trans (by omega) (ih (x0 + 1) p h1)
    · rw [if_neg hv] at hp
      exact le_trans (by omega) (ih (x0 + 1) p hp)

theorem rowTiles_nodup (y x0 : ℕ) (row : List ℕ) : (rowTiles y x0 row).Nodup := by
  induction row generalizing x0 with
  | nil => simp [rowTiles]
  | cons v t ih =>
    unfold rowTiles
    by_cases hv : v = 1
    · rw [if_pos hv]
      refine List.Nodup.cons ?_ (ih (x0 + 1))
      intro hmem
      have := rowTiles_x_ge y (x0 + 1) t _ hmem
      simp at this
    · rw [if_neg hv]
      exact ih (x0 + 1)

theorem floorTilesGo_y_ge (y : ℕ) (rows : List (List ℕ)) :
    ∀ p ∈ floorTilesGo y rows, y ≤ p.y := by
  induction rows generalizing y with
  | nil => intro p hp; simp [floorTilesGo] at hp
  | cons row rest ih =>
    intro p hp
    unfold floorTilesGo at hp
    rcases List.mem_append.mp hp with h1 | h1
    · exact le_of_eq (mem_rowTiles y 0 row h1).1.symm
    · exact le_trans (by omega) (ih (y + 1) p h1)

theorem floorTilesGo_nodup (y : ℕ) (rows : List (List ℕ)) :
    (floorTilesGo y rows).Nodup := by
  induction rows generalizing y with
  | nil => simp [floorTilesGo]
  | cons row rest ih =>
    unfold floorTilesGo
    refine List.Nodup.append (rowTiles_nodup y 0 row) (ih (y + 1)) ?_
    intro p hp1 hp2
    have h1 := (mem_rowTiles y 0 row hp1).1
    have h2 := floorTilesGo_y_ge (y + 1) rest p hp2
    omega

theorem getFloorTiles_nodup (g : List (List ℕ)) : (getFloorTiles g).Nodup :=
  floorTilesGo_nodup 0 g

theorem not_mem_eraseIdx_of_nodup (l : List Pos) :
    ∀ (i : ℕ) (a : Pos), l.Nodup → l.get? i = some a → a ∉ l.eraseIdx i := by
  induction l with
  | nil => intro i a _ hga; simp at hga
  | cons x t ih =>
    intro i a hnd hga
    cases i with
    | zero =>
      have hax : a = x := by simpa using hga.symm
      subst hax
      simpa using (List.nodup_cons.mp hnd).1
    | succ i' =>
      intro hmem
      simp only [List.eraseIdx] at hmem
      rcases List.mem_cons.mp hmem with h1 | h1
      · subst h1
        exact (List.nodup_cons.mp hnd).1 (List.get?_mem (by simpa using hga))
      · exact ih i' a (List.nodup_cons.mp hnd).2 (by simpa using hga) h1

theorem pickPositions_nodup (roll : ℕ → ℚ) (hroll : ∀ i, 0 ≤ roll i ∧ roll i < 1) :
    ∀ (fuel i : ℕ) (tiles : List Pos), tiles.Nodup →
      (pickPositions roll i fuel tiles).Nodup := by
  intro fuel
  induction fuel with
  | zero => intro i tiles _; simp [pickPositions]
  | succ fuel ih =>
    intro i tiles hnd
    cases tiles with
    | nil => simp [pickPositions]
    | cons t ts =>
      unfold pickPositions
      have hidx : ratIdx (roll i) (t :: ts).length < (t :: ts).length :=
        ratIdx_lt (roll i) _ (hroll i).1 (hroll i).2 (by simp)
      have hget : (t :: ts).get? (ratIdx (roll i) (t :: ts).length)
          = some ((t :: ts).getD (ratIdx (roll i) (t :: ts).length) (Pos.mk 0 0)) := by
        rw [List.getD_eq_get?, List.get?_eq_get hidx]
        rfl
      refine List.Nodup.cons ?_ (ih (i + 1) _ (List.Nodup.sublist (List.eraseIdx_sublist _ _) hnd))
      intro hmem
      exact not_mem_eraseIdx_of_nodup (t :: ts) _ _ hnd hget
        (pickPositions_subset roll hroll fuel (i + 1) _ _ hmem)

theorem placeEnemies_positions (layout : List (List ℕ)) (theme : DungeonTheme)
    (params : DungeonGenerationParams) (roomType : RoomType) (rand : RoomRand)
    (h : ¬(roomType = RoomType.safe ∨ roomType = RoomType.treasure)) :
    (placeEnemies layout theme params roomType rand).map (fun e => e.position)
      = pickPositions rand.enemyTile 0
          (if roomType = RoomType.boss then 1
           else (Int.floor ((2 : ℚ) + params.desiredDifficulty)).toNat)
          (getFloorTiles layout) := by
  unfold placeEnemies
  rw [if_neg h, List.map_map]
  exact List.enum_map_snd _

theorem placeItems_positions (layout : List (List ℕ)) (theme : DungeonTheme)
    (playerLevel : ℚ) (roomType : RoomType) (rand : RoomRand) :
    (placeItems layout theme playerLevel roomType rand).map (fun it => it.position)
      = pickPositions rand.itemTile 0
          (if roomType = RoomType.treasure then 5
           else if roomType = RoomType.boss then 3 else 1)
          (getFloorTiles layout) := by
  unfold placeItems
  rw [List.map_map]
  exact List.enum_map_snd _

theorem placeHazards_positions (layout : List (List ℕ)) (theme : DungeonTheme)
    (difficulty : ℚ) (rand : RoomRand) :
    (placeHazards layout theme difficulty rand).map (fun hz => hz.position)
      = pickPositions rand.hazardTile 0 (Int.floor (difficulty / 2)).toNat
          (getFloorTiles layout) := by
  unfold placeHazards
  rw [List.map_map]
  exact List.enum_map_snd _

theorem placeEnemies_positions_nodup (layout : List (List ℕ)) (theme : DungeonTheme)
    (params : DungeonGenerationParams) (roomType : RoomType) (rand : RoomRand)
    (hv : rand.Valid) :
    ((placeEnemies layout theme params roomType rand).map (fun e => e.position)).Nodup := by
  by_cases hb : roomType = RoomType.safe ∨ roomType = RoomType.treasure
  · unfold placeEnemies
    rw [if_pos hb]
    simp
  · rw [placeEnemies_positions _ _ _ _ _ hb]
    exact pickPositions_nodup _ hv.2.2.1 _ _ _ (getFloorTiles_nodup _)

theorem placeItems_positions_nodup (layout : List (List ℕ)) (theme : DungeonTheme)
    (playerLevel : ℚ) (roomType : RoomType) (rand : RoomRand) (hv : rand.Valid) :
    ((placeItems layout theme playerLevel roomType rand).map
      (fun it => it.position)).Nodup := by
  rw [placeItems_positions]
  exact pickPositions_nodup _ hv.2.2.2.2.2.2.2.1 _ _ _ (getFloorTiles_nodup _)

theorem placeHazards_positions_nodup (layout : List (List ℕ)) (theme : DungeonTheme)
    (difficulty : ℚ) (rand : RoomRand) (hv : rand.Valid) :
    ((placeHazards layout theme difficulty rand).map (fun hz => hz.position)).Nodup := by
  rw [placeHazards_positions]
  exact pickPositions_nodup _ hv.2.2.2.2.2.2.2.2.2.2.1 _ _ _ (getFloorTiles_nodup _)

theorem collision_roomType :
    predictRoomType initialGenerator collisionParams 0 1 zeroRand.safeRoll
      = RoomType.boss := by
  simp only [predictRoomType]
  norm_num

theorem collision_gridSize : gridSize collisionParams.desiredDifficulty = 8 := by
  have hd : collisionParams.desiredDifficulty = -1 := rfl
  rw [hd]
  unfold gridSize
  have h8 : (10 : ℚ) + (-1) * 2 = ((8 : ℤ) : ℚ) := by norm_num
  rw [h8, Int.floor_intCast]
  rfl

theorem collision_layout :
    generateLayout RoomType.boss collisionParams.desiredDifficulty zeroRand.cellRoll
      = setCell (setCell (caStep 8 (caStep 8 (caStep 8 (mkGrid 8
          (fun y x => if interiorCell 8 y x then 1 else 0))))) 0 4 2) 7 4 2 := by
  simp only [generateLayout]
  rw [collision_gridSize]
  norm_num
  have hfun : (fun y x => if interiorCell 8 y x then
        if zeroRand.cellRoll y x < 3 / 5 then 1 else 0 else 0)
      = (fun y x : ℕ => if interiorCell 8 y x then 1 else 0) := by
    funext y x
    simp only [show ∀ a b : ℕ, zeroRand.cellRoll a b = (0 : ℚ) from fun _ _ => rfl]
    norm_num
  rw [hfun]

set_option maxRecDepth 4000

theorem collision_tiles_nonempty :
    getFloorTiles (setCell (setCell (caStep 8 (caStep 8 (caStep 8 (mkGrid 8
        (fun y x => if interiorCell 8 y x then 1 else 0))))) 0 4 2) 7 4 2) ≠ [] := by
  decide

theorem ratIdx_zero (n : ℕ) : ratIdx 0 n = 0 := by
  unfold ratIdx
  rw [zero_mul, Int.floor_zero]
  rfl

theorem collision_exists :
    ∃ e ∈ (generateRoom collisionParams cryptTheme 0 1 initialGenerator zeroRand).enemies,
      ∃ it ∈ (generateRoom collisionParams cryptTheme 0 1 initialGenerator zeroRand).items,
        e.position = it.position := by
  have henemies : (generateRoom collisionParams cryptTheme 0 1 initialGenerator
      zeroRand).enemies = placeEnemies
        (generateLayout RoomType.boss collisionParams.desiredDifficulty zeroRand.cellRoll)
        cryptTheme collisionParams RoomType.boss zeroRand := by
    simp only [generateRoom, collision_roomType]
  have hitems : (generateRoom collisionParams cryptTheme 0 1 initialGenerator
      zeroRand).items = placeItems
        (generateLayout RoomType.boss collisionParams.desiredDifficulty zeroRand.cellRoll)
        cryptTheme collisionParams.playerLevel RoomType.boss zeroRand := by
    simp only [generateRoom, collision_roomType]
  obtain ⟨t, ts, hts⟩ : ∃ t ts,
      getFloorTiles (generateLayout RoomType.boss collisionParams.desiredDifficulty
        zeroRand.cellRoll) = t :: ts := by
    rw [collision_layout]
    cases hc : getFloorTiles (setCell (setCell (caStep 8 (caStep 8 (caStep 8 (mkGrid 8
        (fun y x => if interiorCell 8 y x then 1 else 0))))) 0 4 2) 7 4 2) with
    | nil => exact absurd hc collision_tiles_nonempty
    | cons t ts => exact ⟨t, ts, rfl⟩
  have hrE : ratIdx (zeroRand.enemyTile 0) (t :: ts).length = 0 := by
    rw [show zeroRand.enemyTile 0 = (0 : ℚ) from rfl]
    exact ratIdx_zero _
  have hrI : ratIdx (zeroRand.itemTile 0) (t :: ts).length = 0 := by
    rw [show zeroRand.itemTile 0 = (0 : ℚ) from rfl]
    exact ratIdx_zero _
  have hpickE : pickPositions zeroRand.enemyTile 0 1 (t :: ts) = [t] := by
    show (t :: ts).getD (ratIdx (zeroRand.enemyTile 0) (t :: ts).length) (Pos.mk 0 0)
        :: pickPositions zeroRand.enemyTile (0 + 1) 0
            ((t :: ts).eraseIdx (ratIdx (zeroRand.enemyTile 0) (t :: ts).length)) = [t]
    rw [hrE]
    rfl
  have hpickI : pickPositions zeroRand.itemTile 0 3 (t :: ts)
      = t :: pickPositions zeroRand.itemTile 1 2 ts := by
    show (t :: ts).getD (ratIdx (zeroRand.itemTile 0) (t :: ts).length) (Pos.mk 0 0)
        :: pickPositions zeroRand.itemTile (0 + 1) 2
            ((t :: ts).eraseIdx (ratIdx (zeroRand.itemTile 0) (t :: ts).length))
        = t :: pickPositions zeroRand.itemTile 1 2 ts
    rw [hrI]
    rfl
  have hmapE : (generateRoom collisionParams cryptTheme 0 1 initialGenerator
      zeroRand).enemies.map (fun e => e.position) = [t] := by
    rw [henemies, placeEnemies_positions _ _ _ _ _ (by simp), if_pos rfl, hts, hpickE]
  have hmapI : (generateRoom collisionParams cryptTheme 0 1 initialGenerator
      zeroRand).items.map (fun it => it.position)
      = t :: pickPositions zeroRand.itemTile 1 2 ts := by
    rw [hitems, placeItems_positions, hts]
    have hbt : (if RoomType.boss = RoomType.treasure then 5
        else if RoomType.boss = RoomType.boss then 3 else 1) = 3 := by decide
    rw [hbt, hpickI]
  have htE : t ∈ (generateRoom collisionParams cryptTheme 0 1 initialGenerator
      zeroRand).enemies.map (fun e => e.position) := by
    rw [hmapE]; exact List.mem_singleton.mpr rfl
  have htI : t ∈ (generateRoom collisionParams cryptTheme 0 1 initialGenerator
      zeroRand).items.map (fun it => it.position) := by
    rw [hmapI]; exact List.mem_cons_self t _
  obtain ⟨e, he, hpe⟩ := List.mem_map.mp htE
  obtain ⟨it, hit, hpi⟩ := List.mem_map.mp htI
  exact ⟨e, he, it, hit, by rw [hpe, hpi]⟩

/-- Claim C10: in every generated room (for any parameters and any valid
random draws) the positions within each single entity category are pairwise
distinct, because each category draws without replacement from its own fresh
floor-tile list; but distinctness does NOT extend across categories: on the
concrete input `collisionParams` (forced boss room, all draws 0) the first
enemy and the first item land on the same floor tile. -/
theorem entity_positions_distinct_within_category_not_across :
    (∀ (params : DungeonGenerationParams) (theme : DungeonTheme) (roomIndex : ℕ)
       (totalRooms : ℤ) (gen : AIDungeonGenerator) (rand : RoomRand), rand.Valid →
       ((generateRoom params theme roomIndex totalRooms gen rand).enemies.map
           (fun e => e.position)).Nodup
       ∧ ((generateRoom params theme roomIndex totalRooms gen rand).items.map
           (fun it => it.position)).Nodup
       ∧ ((generateRoom params theme roomIndex totalRooms gen rand).hazards.map
           (fun hz => hz.position)).Nodup)
    ∧ (∃ e ∈ (generateRoom collisionParams cryptTheme 0 1 initialGenerator
          zeroRand).enemies,
        ∃ it ∈ (generateRoom collisionParams cryptTheme 0 1 initialGenerator
          zeroRand).items, e.position = it.position) := by
  refine ⟨?_, collision_exists⟩
  intro params theme roomIndex totalRooms gen rand hv
  exact ⟨placeEnemies_positions_nodup _ theme params _ rand hv,
    placeItems_positions_nodup _ theme params.playerLevel _ rand hv,
    placeHazards_positions_nodup _ theme params.desiredDifficulty rand hv⟩

/-- Witness for C10: the within-category distinctness instantiated on the
concrete collision room itself (valid all-zero draws). -/
theorem entity_positions_distinct_witness :
    ((generateRoom collisionParams cryptTheme 0 1 initialGenerator zeroRand).enemies.map
        (fun e => e.position)).Nodup
    ∧ ((generateRoom collisionParams cryptTheme 0 1 initialGenerator zeroRand).items.map
        (fun it => it.position)).Nodup := by
  have h := entity_positions_distinct_within_category_not_across.1 collisionParams
    cryptTheme 0 1 initialGenerator zeroRand zeroRand_valid
  exact ⟨h.1, h.2.1⟩
